import Mathlib

/-!
Verification of the kb-daemon event pipeline (capture → categorize →
summarize/store → review) against its natural-language specification.

The Python modules under `.kb-daemon/` are shallowly embedded here.
Python values that flow through the pipeline (events are dynamically
shaped dicts) are modelled by the inductive type `PyVal`; an event is a
top-level dict, i.e. an association list from string keys to `PyVal`.
Dict update keeps insertion order for existing keys and appends new
keys, exactly as Python 3.7+ dicts do, so `str(event)` renderings are
reproduced faithfully by `pyRepr`.
-/

set_option maxRecDepth 4000

/-- A Python value as used by the kb-daemon pipeline: strings, ints,
booleans, `None`, lists and string-keyed dicts (the only shapes the
daemon ever constructs or consumes — its payloads are JSON-shaped). -/
inductive PyVal where
  | vstr (s : String)
  | vint (n : Int)
  | vbool (b : Bool)
  | vnone
  | vlist (xs : List PyVal)
  | vdict (xs : List (String × PyVal))

/-- Lookup in an association-list dict (Python `d.get(k)` / `d[k]`). -/
def dlookup : List (String × PyVal) → String → Option PyVal
  | [], _ => none
  | (k, v) :: rest, key => if k = key then some v else dlookup rest key

/-- Python `d[k] = v`: replace in place if the key exists (insertion
order preserved), else append at the end. -/
def dinsert : List (String × PyVal) → String → PyVal → List (String × PyVal)
  | [], key, v => [(key, v)]
  | (k, w) :: rest, key, v =>
      if k = key then (k, v) :: rest else (k, w) :: dinsert rest key v

/-- An event (or any Python dict at top level) as the daemon passes it
between pipeline stages. -/
abbrev Event := List (String × PyVal)

/-- Python `event.get(k)` returning `None`-ness as `Option`. -/
def Event.get (ev : Event) (k : String) : Option PyVal :=
  dlookup ev k

/-- Python `event.get(k, default)`. -/
def Event.getD (ev : Event) (k : String) (d : PyVal) : PyVal :=
  (dlookup ev k).getD d

/-- Python `event[k] = v`. -/
def Event.set (ev : Event) (k : String) (v : PyVal) : Event :=
  dinsert ev k v

/-- Python `k in event`. -/
def Event.hasKey (ev : Event) (k : String) : Bool :=
  (dlookup ev k).isSome

/-- Python `event.get(k, {})` viewed as a dict (the daemon only ever
uses this on keys that hold dicts; a non-dict value yields its
dict-view as empty, which the daemon would have crashed on anyway). -/
def Event.getDict (ev : Event) (k : String) : Event :=
  match dlookup ev k with
  | some (PyVal.vdict xs) => xs
  | _ => []

/-- Python `d.get(k, '')` coerced to the string the daemon reads (the
payload fields so accessed are strings on every capture path). -/
def Event.getStr (ev : Event) (k : String) : String :=
  match dlookup ev k with
  | some (PyVal.vstr s) => s
  | _ => ""

/-- Python truthiness (`if v:`). -/
def pyTruthy : PyVal → Bool
  | .vstr s => !(s.isEmpty)
  | .vint n => !(n == 0)
  | .vbool b => b
  | .vnone => false
  | .vlist xs => !(xs.isEmpty)
  | .vdict xs => !(xs.isEmpty)

/-- Python `v == 0` (bools compare as their int value; other types are
simply unequal to `0`, no exception). -/
def pyEqZero : PyVal → Bool
  | .vint n => n == 0
  | .vbool b => !b
  | _ => false

/-- Python `v > k` for the numeric comparisons the daemon performs on
payload fields (`duration`, `exit_code`).  Python raises `TypeError`
on non-numeric operands; those events would kill the producer thread
before yielding any enriched event, so the model returns `false` for
them (no enrichment branch is taken). -/
def pyGtInt (v : PyVal) (k : Int) : Bool :=
  match v with
  | .vint n => k < n
  | .vbool b => k < (if b then (1 : Int) else 0)
  | _ => false

/-- Python `int(v)` view of numeric values (bools are ints). -/
def pyAsInt (v : PyVal) : Option Int :=
  match v with
  | .vint n => some n
  | .vbool b => some (if b then 1 else 0)
  | _ => none

/-- `pyAsInt` with a default, as in `event.get('importance', 5)` used
numerically. -/
def pyAsIntD (v : PyVal) (d : Int) : Int :=
  (pyAsInt v).getD d

mutual

/-- Python `==` on pipeline values: numbers compare numerically
(`True == 1` holds), strings and `None` structurally, lists pointwise.
The daemon only ever applies `==` to strings and numbers (command
names, exit codes, categories); dict operands never occur, so dict
equality is modelled entry-wise. -/
def pyBeq : PyVal → PyVal → Bool
  | .vstr a, .vstr b => a == b
  | .vint a, .vint b => a == b
  | .vbool a, .vbool b => a == b
  | .vint a, .vbool b => a == (if b then 1 else 0)
  | .vbool a, .vint b => (if a then (1 : Int) else 0) == b
  | .vnone, .vnone => true
  | .vlist a, .vlist b => pyBeqList a b
  | .vdict a, .vdict b => pyBeqEntries a b
  | _, _ => false

/-- Pointwise `pyBeq` on lists. -/
def pyBeqList : List PyVal → List PyVal → Bool
  | [], [] => true
  | x :: xs, y :: ys => pyBeq x y && pyBeqList xs ys
  | _, _ => false

/-- Entry-wise `pyBeq` on dict entries. -/
def pyBeqEntries : List (String × PyVal) → List (String × PyVal) → Bool
  | [], [] => true
  | (k, v) :: xs, (l, w) :: ys => k == l && pyBeq v w && pyBeqEntries xs ys
  | _, _ => false

end

/-- Whether `pat` is a prefix of `hay` (character-wise). -/
def isPrefixL : List Char → List Char → Bool
  | [], _ => true
  | _ :: _, [] => false
  | p :: ps, h :: hs => p == h && isPrefixL ps hs

/-- Whether `pat` occurs as a contiguous run in `hay`. -/
def containsSub (pat : List Char) : List Char → Bool
  | [] => isPrefixL pat []
  | c :: rest => isPrefixL pat (c :: rest) || containsSub pat rest

/-- Substring test, Python's `sub in s`. -/
def strContains (s sub : String) : Bool :=
  containsSub sub.data s.data

/-- Python `str.lower()` (character-wise; the daemon's searched text
is ASCII). -/
def toLowerStr (s : String) : String :=
  String.mk (s.data.map Char.toLower)

/-- Split on a single separator character (Python `str.split(c)` on
the daemon's one-character separators, empty chunks kept). -/
def splitOnChar (c : Char) (s : String) : List String :=
  let rec go : List Char → List Char → List String
    | [], acc => [String.mk acc.reverse]
    | x :: xs, acc =>
      if x == c then String.mk acc.reverse :: go xs []
      else go xs (x :: acc)
  go s.data []

/-- Python `str.split()` — whitespace runs, empty tokens dropped. -/
def wsTokens (s : String) : List String :=
  ((splitOnChar (' ') (String.mk (s.data.map
    (fun c => if c.isWhitespace then ' ' else c)))).filter
      (fun t => !t.isEmpty))

/-- Python `str.strip()`. -/
def trimStr (s : String) : String :=
  String.mk (((s.data.dropWhile Char.isWhitespace).reverse.dropWhile
    Char.isWhitespace).reverse)

/-- Python `int(...)` on a run of decimal digits (`None` otherwise),
as `fromisoformat` consumes its fixed-width fields. -/
def strToNat? (s : String) : Option Nat :=
  let rec go : List Char → Nat → Option Nat
    | [], acc => some acc
    | c :: cs, acc =>
      if c.isDigit then go cs (acc * 10 + (c.toNat - 48)) else none
  match s.data with
  | [] => none
  | l => go l 0

/-- Byte-wise (here character-wise, the stored text is ASCII) string
order, as SQLite's memcmp collation compares TEXT values. -/
def lexLe : List Char → List Char → Bool
  | [], _ => true
  | _ :: _, [] => false
  | a :: as, b :: bs =>
    if a == b then lexLe as bs else a.toNat ≤ b.toNat

mutual

/-- Python `repr`/`str` of a value as the daemon renders it via
`str(event)` (single-quoted strings, `True`/`False`, `None`). -/
def pyRepr : PyVal → String
  | .vstr s => ("\x27") ++ s ++ ("\x27")
  | .vint n => toString n
  | .vbool b => if b then ("True") else ("False")
  | .vnone => ("None")
  | .vlist xs => ("[") ++ pyReprList xs ++ ("]")
  | .vdict xs => ("\x7b") ++ pyReprEntries xs ++ ("\x7d")

/-- Comma-separated renderings of a list's elements. -/
def pyReprList : List PyVal → String
  | [] => ""
  | [x] => pyRepr x
  | x :: y :: rest => pyRepr x ++ (", ") ++ pyReprList (y :: rest)

/-- Comma-separated `'key': value` renderings of a dict's entries. -/
def pyReprEntries : List (String × PyVal) → String
  | [] => ""
  | [(k, v)] => ("\x27") ++ k ++ ("\x27: ") ++ pyRepr v
  | (k, v) :: e :: rest =>
      ("\x27") ++ k ++ ("\x27: ") ++ pyRepr v ++ (", ") ++ pyReprEntries (e :: rest)

end

/-- `str(event)` for a top-level event dict. -/
def eventRepr (ev : Event) : String :=
  pyRepr (PyVal.vdict ev)

/-- Python `str(v)` used inside f-strings: strings render bare, all
other values render as their repr. -/
def pyDisplay : PyVal → String
  | .vstr s => s
  | v => pyRepr v

/-- Replace the last element of a non-empty list.  Models Python's
in-place mutation of a dict that was appended to a history list: the
list entry aliases the mutated object. -/
def replaceLast (l : List Event) (e : Event) : List Event :=
  l.dropLast ++ [e]

/-- Python `l[-n:]`. -/
def lastN (l : List Event) (n : Nat) : List Event :=
  l.drop (l.length - n)

/-! ## capture/shell_monitor.py — `ShellMonitor`

State carried across `_process_command` calls: the configured
`track_commands` allow-list, the rolling `command_history` (capped at
100), and `last_error`.  History entries alias the processed event
dicts, so in-place enrichment shows up inside the history; this is
modelled by `replaceLast` after each enrichment. -/

namespace ShellMonitor

structure State where
  track_commands : List PyVal
  command_history : List Event
  last_error : Option Event

/-- `ShellMonitor._is_important_command`: a regex word list searched
case-insensitively in `f"{command} {args}"`, or a duration above 5. -/
def is_important_command (data : Event) : Bool :=
  let full := pyDisplay (data.getD ("command") (.vstr "")) ++ (" ")
      ++ pyDisplay (data.getD ("args") (.vstr ""))
  let importantWords : List String :=
    ["install", "add", "remove", "update", "upgrade",
     "build", "test", "deploy", "push", "pull",
     "merge", "rebase", "commit"]
  importantWords.any (fun p => strContains (toLowerStr full) p)
    || pyGtInt (data.getD ("duration") (.vint 0)) 5

/-- `ShellMonitor._categorize_command`.  The package-manager branch
falls through to `'shell_command'` when no sub-pattern matches (its
inner `elif` chain returns nothing in that case).  For the `git`
branch, `args.split()[0]` is modelled as the first whitespace token
(Python would raise on whitespace-only `args`; no claim touches it). -/
def categorize_command (command : PyVal) (data : Event) : String :=
  let args := data.getStr ("args")
  let argsVal := data.getD ("args") (.vstr "")
  let full := pyDisplay command ++ (" ") ++ pyDisplay argsVal
  let isCmd : String → Bool := fun c => pyBeq command (.vstr c)
  if [("npm"), ("yarn"), ("pnpm"), ("pip"), ("cargo")].any isCmd then
    if strContains args ("install") || strContains args ("add") then ("dependency_add")
    else if strContains args ("remove") || strContains args ("uninstall") then ("dependency_remove")
    else if strContains args ("test") then ("testing")
    else if strContains args ("build") then ("building")
    else ("shell_command")
  else if [("pytest"), ("jest"), ("mocha")].any isCmd || strContains full ("test") then
    ("testing")
  else if isCmd ("docker") then
    if strContains args ("build") then ("docker_build")
    else if strContains args ("run") then ("docker_run")
    else if strContains args ("compose") then ("docker_compose")
    else ("shell_command")
  else if isCmd ("git") then
    let tokens := wsTokens args
    let sub := if pyTruthy argsVal then tokens.headD ("") else ("")
    if sub.isEmpty then ("git") else ("git_") ++ sub
  else if isCmd ("kubectl") then
    if strContains args ("apply") then ("deploy")
    else if strContains args ("get") then ("inspect")
    else ("shell_command")
  else ("shell_command")

/-- `ShellMonitor._calculate_command_importance`: base 5; 8 on a
high-importance word, then 6 on a medium word (the medium check runs
second and overwrites); +1 for duration above 30 and again above 60;
capped at 10. -/
def calculate_command_importance (command : PyVal) (data : Event) : Int :=
  let full := pyDisplay command ++ (" ") ++ pyDisplay (data.getD ("args") (.vstr ""))
  let duration := data.getD ("duration") (.vint 0)
  let importance : Int := 5
  let importance :=
    if [("deploy"), ("apply"), ("push"), ("merge"), ("install")].any
        (fun x => strContains full x) then 8 else importance
  let importance :=
    if [("test"), ("build"), ("commit")].any
        (fun x => strContains full x) then 6 else importance
  let importance := if pyGtInt duration 30 then importance + 1 else importance
  let importance := if pyGtInt duration 60 then importance + 1 else importance
  min importance 10

/-- `c.get('category') == 'testing'` (missing key compares as `None`). -/
def hasCategory (c : Event) (cat : String) : Bool :=
  pyBeq (c.getD ("category") .vnone) (.vstr cat)

/-- `ShellMonitor._detect_patterns` over the history including the
just-appended (still unenriched) current event. -/
def detect_patterns (history : List Event) : List String :=
  if history.length < 3 then []
  else
    let recent := lastN history 10
    let testCmds := recent.filter (fun c => hasCategory c ("testing"))
    let p1 :=
      if testCmds.length ≥ 3 then
        let failures := testCmds.filter
          (fun c => !(pyEqZero ((c.getDict ("data")).getD ("exit_code") (.vint 0))))
        if !failures.isEmpty then [("debugging_session")] else []
      else []
    let depCmds := recent.filter (fun c => strContains (c.getStr ("category")) ("dependency"))
    let p2 := if depCmds.length ≥ 2 then [("dependency_management")] else []
    let buildCmds := recent.filter (fun c => hasCategory c ("building"))
    let p3 :=
      if !buildCmds.isEmpty && !testCmds.isEmpty then [("build_test_cycle")] else []
    p1 ++ p2 ++ p3

/-- `ShellMonitor._is_error_fix`: same command as the recorded last
error and a zero exit code. -/
def is_error_fix (lastErr : Option Event) (event : Event) : Bool :=
  match lastErr with
  | none => false
  | some le =>
      pyBeq ((event.getDict ("data")).getD ("command") .vnone)
            ((le.getDict ("data")).getD ("command") .vnone)
        && pyEqZero ((event.getDict ("data")).getD ("exit_code") .vnone)

/-- `ShellMonitor._process_command`.  Mirrors the source's statement
order: untracked-and-unimportant commands are dropped; the event is
appended to the (100-capped) history before enrichment, so the history
entry aliases the enriched dict; on a non-zero exit code `last_error`
is set to the event itself *before* the error-fix check runs. -/
def process_command (st : State) (event : Event) : State × Option Event :=
  let data := event.getDict ("data")
  let command := data.getD ("command") (.vstr "")
  if !(st.track_commands.any (fun t => pyBeq command t))
      && !(is_important_command data) then
    (st, none)
  else
    let history := st.command_history ++ [event]
    let history := if history.length > 100 then history.drop 1 else history
    let category := categorize_command command data
    let importance := calculate_command_importance command data
    let patterns := detect_patterns history
    let ev1 := ((event.set ("category") (.vstr category)).set
        ("importance") (.vint importance)).set
        ("patterns") (.vlist (patterns.map PyVal.vstr))
    let isErr := !(pyEqZero (data.getD ("exit_code") (.vint 0)))
    if isErr then
      let ev2 := (ev1.set ("is_error") (.vbool true)).set
          ("importance") (.vint (min (importance + 2) 10))
      let fix := is_error_fix (some ev2) ev2
      let ev3 :=
        if fix then (ev2.set ("fixes_error") (.vbool true)).set
            ("importance") (.vint 8)
        else ev2
      (⟨st.track_commands, replaceLast history ev3, some ev3⟩, some ev3)
    else
      (⟨st.track_commands, replaceLast history ev1, st.last_error⟩, some ev1)

end ShellMonitor

/-! ## Timestamps

`datetime.fromisoformat(ts.rstrip('Z'))` on the daemon's wire format
`YYYY-MM-DDTHH:MM:SS` (second precision, per the spec's event model).
A parsed datetime is represented by its epoch second count; subtraction
gives a `timedelta` whose `.seconds` attribute is the floor-mod of the
total by one day (Python normalises `timedelta` to
`days*86400 + seconds` with `0 <= seconds < 86400`). -/

/-- Days since 1970-01-01 of a civil date (standard era-based civil
calendar arithmetic; leap years handled exactly). -/
def daysFromCivil (y m d : Int) : Int :=
  let y := if m ≤ 2 then y - 1 else y
  let era := (if 0 ≤ y then y else y - 399) / 400
  let yoe := y - era * 400
  let mp := if 2 < m then m - 3 else m + 9
  let doy := (153 * mp + 2) / 5 + d - 1
  let doe := yoe * 365 + yoe / 4 - yoe / 100 + doy
  era * 146097 + doe - 719468

/-- `str.rstrip('Z')`. -/
def rstripZ (s : String) : String :=
  String.mk ((s.data.reverse.dropWhile (fun c => c == 'Z')).reverse)

/-- `datetime.fromisoformat` restricted to the daemon's wire format
`YYYY-MM-DDTHH:MM:SS`, as epoch seconds; malformed strings yield
`none` (the callers' bare `except: continue`). -/
def fromisoformat (s : String) : Option Int :=
  match splitOnChar ('T') s with
  | [d, t] =>
    match splitOnChar ('-') d, splitOnChar (':') t with
    | [ys, ms, ds], [hs, ns, ss] =>
      match strToNat? ys, strToNat? ms, strToNat? ds, strToNat? hs, strToNat? ns, strToNat? ss with
      | some y, some mo, some da, some h, some mi, some sec =>
        if 1 ≤ mo ∧ mo ≤ 12 ∧ 1 ≤ da ∧ da ≤ 31 ∧ h ≤ 23 ∧ mi ≤ 59 ∧ sec ≤ 59 then
          some (86400 * daysFromCivil (Int.ofNat y) (Int.ofNat mo) (Int.ofNat da)
            + 3600 * (Int.ofNat h) + 60 * (Int.ofNat mi) + Int.ofNat sec)
        else none
      | _, _, _, _, _, _ => none
    | _, _ => none
  | _ => none

/-- `timedelta.seconds`: the seconds-within-a-day component of a
normalised timedelta, i.e. the floor-mod of the total seconds by
86400 (whole days are discarded, never negative). -/
def tdSeconds (total : Int) : Int :=
  total % 86400

/-- The `timestamps` list both the categorizer and the summarizer
build: parse each event's `timestamp` (skipping falsy values and
parse failures; a non-string raises inside the `try` and is skipped
by the bare `except`). -/
def parsedTimestamps (events : List Event) : List Int :=
  events.filterMap (fun e =>
    match Event.get e ("timestamp") with
    | some (PyVal.vstr s) => if s.isEmpty then none else fromisoformat (rstripZ s)
    | _ => none)

/-- Python `max(l)` on a non-empty list of ints. -/
def listMax (l : List Int) : Int :=
  l.foldl max (l.headD 0)

/-- Python `min(l)` on a non-empty list of ints. -/
def listMin (l : List Int) : Int :=
  l.foldl min (l.headD 0)

/-! ## process/categorizer.py — `ActivityCategorizer`

Configuration is the parsed `patterns.yml`: the `detection_patterns`
section (ordered category → indicators/keywords rules) and the
`importance_scoring.factors` map of per-category base weights. -/

namespace Categorizer

structure PatternDef where
  indicators : List String
  keywords : List String

structure Patterns where
  detection_patterns : List (String × PatternDef)
  importance_factors : List (String × Int)

/-- `dict.get` on the factors map with default. -/
def lookupFactor : List (String × Int) → String → Int
  | [], _ => 5
  | (k, v) :: rest, key => if k = key then v else lookupFactor rest key

/-- `ActivityCategorizer._calculate_session_duration`: difference of
the extreme parsed timestamps, through `timedelta.seconds` (whole days
discarded); fewer than two parseable timestamps give 0. -/
def calculate_session_duration (events : List Event) : Int :=
  let ts := parsedTimestamps events
  if 2 ≤ ts.length then tdSeconds (listMax ts - listMin ts) else 0

/-- `ActivityCategorizer._matches_pattern` (the window is
`self.context_window` at call time, current event included). -/
def matches_pattern (window : List Event) (event : Event) (pd : PatternDef) : Bool :=
  let eventStr := toLowerStr (eventRepr event)
  let data := event.getDict ("data")
  pd.keywords.any (fun kw => strContains eventStr (toLowerStr kw))
    || pd.indicators.any (fun ind =>
        if ind = ("error_in_output") then
          !(pyEqZero (data.getD ("exit_code") (.vint 0)))
        else if ind = ("multiple_test_runs") then
          2 ≤ ((lastN window 5).filter
            (fun e => strContains (toLowerStr (eventRepr e)) ("test"))).length
        else false)

/-- `ActivityCategorizer._determine_category`: first matching
detection pattern wins, then type-based defaults, then `'general'`. -/
def determine_category (pats : Patterns) (window : List Event) (event : Event) : String :=
  let etype := event.getStr ("type")
  let data := event.getDict ("data")
  match pats.detection_patterns.find? (fun p => matches_pattern window event p.2) with
  | some p => p.1
  | none =>
    if etype = ("git_commit") then ("development")
    else if etype = ("shell_command") then
      let command := data.getD ("command") (.vstr "")
      let isCmd : String → Bool := fun c => pyBeq command (.vstr c)
      if [("npm"), ("yarn"), ("pip"), ("cargo")].any isCmd then ("dependency_management")
      else if [("pytest"), ("jest"), ("test")].any isCmd then ("testing")
      else if isCmd ("docker") then ("containerization")
      else ("general")
    else ("general")

/-- `ActivityCategorizer._enhance_category`: refine an event that
already carries a category.  The `git_commit`-category WIP branch
*re-reduces* importance by 2 (floor 1) each time it runs. -/
def enhance_category (event : Event) : Event :=
  let category := event.getStr ("category")
  if category = ("testing") then
    if pyTruthy (event.getD ("is_error") .vnone) then
      event.set ("subcategory") (.vstr ("test_failure"))
    else if pyTruthy (event.getD ("fixes_error") .vnone) then
      event.set ("subcategory") (.vstr ("test_fix"))
    else event
  else if category = ("git_commit") then
    let message := (event.getDict ("data")).getStr ("message")
    if strContains message ("WIP") then
      (event.set ("subcategory") (.vstr ("work_in_progress"))).set
        ("importance")
        (.vint (max (pyAsIntD (event.getD ("importance") (.vint 5)) 5 - 2) 1))
    else event
  else event

/-- `ActivityCategorizer._calculate_importance`: category base weight
(default 5) adjusted by the breaking-change text signal, the error
flag, merged external commits and a long duration. -/
def calculate_importance (pats : Patterns) (event : Event) : Int :=
  let category := event.getStr ("category")
  let data := event.getDict ("data")
  let base := lookupFactor pats.importance_factors category
  let base := if strContains (toLowerStr (eventRepr event)) ("breaking") then max base 9 else base
  let base := if pyTruthy (event.getD ("is_error") .vnone) then min (base + 2) 10 else base
  let base := if pyTruthy (event.getD ("external_commits") .vnone) then max base 7 else base
  let base := if pyGtInt (data.getD ("duration") (.vint 0)) 60 then min (base + 1) 10 else base
  base

/-- Last path component of `data.get('path','')` (`pathlib.Path.name`). -/
def pathName (p : String) : String :=
  ((splitOnChar ('/') p).filter (fun t => !t.isEmpty)).getLastD ("")

/-- `pathlib.Path.suffix` of a file name: the final extension with its
dot; a lone leading dot (hidden file) has no suffix. -/
def pathSuffix (name : String) : String :=
  match splitOnChar ('.') name with
  | [] => ""
  | [_] => ""
  | first :: rest =>
    if first.isEmpty ∧ rest.length = 1 then ""
    else ("." ) ++ rest.getLastD ("")

/-- `ActivityCategorizer._extract_key_info` restricted to the fields
it reads: the event's `type` string and `data` dict. -/
def extractKI (etype : String) (data : Event) : PyVal :=
  if etype = ("git_commit") then
    .vdict [(("commit_message"), .vstr ((data.getStr ("message")).take 100)),
            (("files_changed"),
             .vint (Int.ofNat (wsTokens (data.getStr ("files_changed"))).length))]
  else if etype = ("shell_command") then
    .vdict [(("command"),
             .vstr (trimStr (pyDisplay (data.getD ("command") .vnone) ++ (" ")
               ++ pyDisplay (data.getD ("args") (.vstr ""))))),
            (("duration"), data.getD ("duration") (.vint 0)),
            (("success"), .vbool (pyEqZero (data.getD ("exit_code") (.vint 0))))]
  else if etype = ("file_change") then
    let name := pathName (data.getStr ("path"))
    .vdict [(("file"), .vstr name), (("file_type"), .vstr (pathSuffix name))]
  else .vdict []

/-- `ActivityCategorizer._extract_key_info`. -/
def extract_key_info (event : Event) : PyVal :=
  extractKI (event.getStr ("type")) (event.getDict ("data"))

/-- `.get` on a session dict value. -/
def svGetD (v : PyVal) (k : String) (d : PyVal) : PyVal :=
  match v with
  | .vdict xs => (dlookup xs k).getD d
  | _ => d

/-- `ActivityCategorizer._detect_session` over the context window
(current event included, already enriched). -/
def detect_session (window : List Event) : Option PyVal :=
  if window.length < 3 then none
  else
    let recent := lastN window 10
    let errors := recent.filter (fun e => pyTruthy (e.getD ("is_error") .vnone))
    let fixes := recent.filter (fun e => pyTruthy (e.getD ("fixes_error") .vnone))
    if !errors.isEmpty && !fixes.isEmpty then
      some (.vdict [(("type"), .vstr ("debugging")),
                    (("duration"), .vint (calculate_session_duration recent)),
                    (("errors_encountered"), .vint (Int.ofNat errors.length)),
                    (("fixed"), .vbool (0 < fixes.length))])
    else
      let featureInd := recent.filter (fun e =>
        [("feature_start"), ("code_created"), ("test_created")].any
          (fun c => pyBeq (e.getD ("category") .vnone) (.vstr c)))
      if 3 ≤ featureInd.length then
        some (.vdict [(("type"), .vstr ("feature_development")),
                      (("duration"), .vint (calculate_session_duration recent)),
                      (("files_created"),
                       .vint (Int.ofNat (recent.filter
                         (fun e => strContains (e.getStr ("category")) ("created"))).length))])
      else
        let learningInd := recent.filter (fun e =>
          strContains (toLowerStr (eventRepr e)) ("documentation")
            || strContains (eventRepr e) ("README"))
        if 2 ≤ learningInd.length then
          some (.vdict [(("type"), .vstr ("learning")),
                        (("duration"), .vint (calculate_session_duration recent))])
        else none

/-- `ActivityCategorizer.categorize_event` (the window argument is
`self.context_window` at call time, with the current, still raw,
event as its last entry). -/
def categorize_event (pats : Patterns) (window : List Event) (event : Event) : Event :=
  let event :=
    if event.hasKey ("category") then enhance_category event
    else event.set ("category") (.vstr (determine_category pats window event))
  let event :=
    if event.hasKey ("importance") then event
    else event.set ("importance") (.vint (calculate_importance pats event))
  event.set ("key_info") (extract_key_info event)

/-- One iteration of `ActivityCategorizer.categorize_batch`: append
the raw event to the 50-capped window, categorize it (the window entry
aliases the event dict, so enrichment shows up in the window), then
run session detection and attach any detected session (again visible
through the aliased window entry). -/
def categorize_step (pats : Patterns) (window : List Event) (event : Event) :
    List Event × Event :=
  let w := window ++ [event]
  let w := if 50 < w.length then w.drop 1 else w
  let e1 := categorize_event pats w event
  let w := replaceLast w e1
  match detect_session w with
  | some s =>
    let e2 := e1.set ("session") s
    (replaceLast w e2, e2)
  | none => (w, e1)

/-- `ActivityCategorizer.categorize_batch`: fold `categorize_step`
over the batch, threading the context window and collecting the
categorized events. -/
def categorize_batch (pats : Patterns) (window : List Event) :
    List Event → List Event × List Event
  | [] => (window, [])
  | e :: rest =>
    let (w1, e1) := categorize_step pats window e
    let (w2, out) := categorize_batch pats w1 rest
    (w2, e1 :: out)

end Categorizer

/-! ## process/summarizer.py — `Summarizer`

Phase 1 forces the rule-based path (`use_llm = False`), so
`summarize` is exactly `_rule_based_summarize`.  The summary is a
dict built in the source's insertion order; `utcnow` enters as the
`now` parameter. -/

namespace Summarizer

/-- Python `str.title()` on the session-type strings the summarizer
renders (single-space-separated lowercase words). -/
def titleCase (s : String) : String :=
  String.intercalate (" ")
    ((splitOnChar (' ') s).map (fun w =>
      match w.data with
      | [] => w
      | c :: rest => String.mk (c.toUpper :: rest.map Char.toLower)))

/-- `str.replace('_', ' ')`. -/
def underscoresToSpaces (s : String) : String :=
  String.mk (s.data.map (fun c => if c == '_' then ' ' else c))

/-- `Summarizer._get_time_range`: extreme parsed timestamps and the
`timedelta.seconds`-based minute count (whole days discarded); an
empty timestamp list gives `{}`.  The rendered `start`/`end` strings
are the parsed instants re-serialised; only `duration_minutes` is
consumed downstream, so the instants are kept as epoch seconds here. -/
def get_time_range (events : List Event) : Event :=
  let ts := parsedTimestamps events
  if ts.isEmpty then []
  else
    [(("start"), .vint (listMin ts)),
     (("end"), .vint (listMax ts)),
     (("duration_minutes"), .vint (tdSeconds (listMax ts - listMin ts) / 60))]

/-- `Summarizer._describe_event`. -/
def describe_event (event : Event) : String :=
  let etype := event.getStr ("type")
  let data := event.getDict ("data")
  let keyInfo : Event :=
    match Event.get event ("key_info") with
    | some (PyVal.vdict xs) => xs
    | _ => []
  if etype = ("git_commit") then
    ("Commit: ") ++ pyDisplay (keyInfo.getD ("commit_message") (.vstr ("Unknown")))
  else if etype = ("shell_command") then
    ("Command: ") ++ pyDisplay (keyInfo.getD ("command") (.vstr ("Unknown")))
  else if etype = ("file_change") then
    ("File ") ++ pyDisplay (data.getD ("event_type") (.vstr ("changed")))
      ++ (": ") ++ pyDisplay (keyInfo.getD ("file") (.vstr ("Unknown")))
  else if etype = ("pattern_detected") then
    ("Pattern: ") ++ pyDisplay (data.getD ("pattern") (.vstr ("Unknown")))
  else titleCase (underscoresToSpaces (event.getStr ("category")))

/-- The `f"{session.get('type')}_{session.get('duration')}"` dedup
key used for sessions. -/
def sessionKey (s : PyVal) : String :=
  pyDisplay (Categorizer.svGetD s ("type") .vnone) ++ ("_")
    ++ pyDisplay (Categorizer.svGetD s ("duration") .vnone)

/-- `session['type'].replace('_',' ').title()` plus the minute count:
the rendered description of a session activity. -/
def sessionDescription (s : PyVal) : String :=
  let ty := match Categorizer.svGetD s ("type") .vnone with
    | .vstr t => t
    | _ => ""
  titleCase (underscoresToSpaces ty) ++ (" session (")
    ++ toString (pyAsIntD (Categorizer.svGetD s ("duration") (.vint 0)) 0 / 60)
    ++ (" minutes)")

/-- `Summarizer._extract_key_activities`: importance ≥ 7 events, then
one representative per distinct session key, capped at 10. -/
def extract_key_activities (events : List Event) : List PyVal :=
  let high := (events.filter (fun e =>
      match pyAsInt (e.getD ("importance") (.vint 0)) with
      | some i => 7 ≤ i
      | none => false)).map (fun e =>
    PyVal.vdict [(("description"), .vstr (describe_event e)),
                 (("category"), e.getD ("category") .vnone),
                 (("timestamp"), e.getD ("timestamp") .vnone)])
  let sessions := (events.foldl (fun (acc : List String × List PyVal) e =>
    let s := e.getD ("session") .vnone
    if pyTruthy s then
      let key := sessionKey s
      if acc.1.contains key then acc
      else (acc.1 ++ [key], acc.2 ++
        [PyVal.vdict [(("description"), .vstr (sessionDescription s)),
                      (("category"), .vstr ("session")),
                      (("timestamp"), e.getD ("timestamp") .vnone)]])
    else acc) ([], [])).2
  (high ++ sessions).take 10

/-- `Summarizer._extract_decisions` (each event can contribute up to
three entries; capped at 5). -/
def extract_decisions (events : List Event) : List String :=
  (events.flatMap (fun e =>
    let category := e.getStr ("category")
    let keyInfo : Event :=
      match Event.get e ("key_info") with
      | some (PyVal.vdict xs) => xs
      | _ => []
    (if category = ("dependency_add") then
      [("Added dependency: ") ++ pyDisplay (keyInfo.getD ("command") (.vstr ""))]
     else [])
    ++ (if pyTruthy (e.getD ("breaking_change") .vnone) then
      [("Breaking change: ") ++ pyDisplay (keyInfo.getD ("commit_message") (.vstr ("Unknown")))]
     else [])
    ++ (if category = ("config_change") then
      [("Configuration change: ") ++ pyDisplay (keyInfo.getD ("file") (.vstr ("Unknown")))]
     else []))).take 5

/-- `Summarizer._calculate_time_diff` in minutes (the bare `except`
returns 0 on unparseable timestamps). -/
def calculate_time_diff (e1 e2 : Event) : Int :=
  let p := fun (e : Event) =>
    match Event.get e ("timestamp") with
    | some (PyVal.vstr s) => fromisoformat (rstripZ s)
    | some _ => none
    | none => fromisoformat (rstripZ (""))
  match p e1, p e2 with
  | some t1, some t2 => (tdSeconds (t2 - t1)).natAbs / 60
  | _, _ => 0

/-- `Summarizer._extract_problems_solved`: pair each fix with its
first same-command error, then debugging sessions with `fixed`, capped
at 5. -/
def extract_problems_solved (events : List Event) : List PyVal :=
  let errors := events.filter (fun e => pyTruthy (e.getD ("is_error") .vnone))
  let fixes := events.filter (fun e => pyTruthy (e.getD ("fixes_error") .vnone))
  let paired := fixes.flatMap (fun fx =>
    let fixCommand := (fx.getDict ("data")).getD ("command") (.vstr "")
    match errors.find? (fun er =>
        pyBeq ((er.getDict ("data")).getD ("command") (.vstr "")) fixCommand) with
    | some er =>
      [PyVal.vdict [(("problem"), .vstr (("Error in: ") ++ pyDisplay fixCommand)),
                    (("solution"), .vstr ("Fixed after debugging")),
                    (("time_to_fix"), .vint (calculate_time_diff er fx))]]
    | none => [])
  let sessionProblems := events.flatMap (fun e =>
    let s := e.getD ("session") .vnone
    if pyTruthy s ∧ pyBeq (Categorizer.svGetD s ("type") .vnone) (.vstr ("debugging"))
        ∧ pyTruthy (Categorizer.svGetD s ("fixed") .vnone) then
      [PyVal.vdict [(("problem"),
                     .vstr (("Debugging session with ")
                       ++ pyDisplay (Categorizer.svGetD s ("errors_encountered") (.vint 0))
                       ++ (" errors"))),
                    (("solution"), .vstr ("Resolved")),
                    (("duration_minutes"),
                     .vint (pyAsIntD (Categorizer.svGetD s ("duration") (.vint 0)) 0 / 60))]]
    else [])
  (paired ++ sessionProblems).take 5

/-- Python `len(v)` on the values the summarizer measures. -/
def pyLen (v : PyVal) : Int :=
  match v with
  | .vlist xs => Int.ofNat xs.length
  | .vstr s => Int.ofNat s.length
  | .vdict xs => Int.ofNat xs.length
  | _ => 0

/-- `Summarizer._extract_external_changes` (unbounded). -/
def extract_external_changes (events : List Event) : List PyVal :=
  events.flatMap (fun e =>
    if pyTruthy (e.getD ("external_commits") .vnone) then
      let analysis := e.getD ("external_changes") (.vdict [])
      [PyVal.vdict [(("type"), .vstr ("commits_merged")),
                    (("count"), .vint (pyLen (e.getD ("external_commits") .vnone))),
                    (("authors"), Categorizer.svGetD analysis ("authors") (.vlist [])),
                    (("breaking_changes"),
                     Categorizer.svGetD analysis ("potential_breaking_changes") (.vlist []))]]
    else [])

/-- `Summarizer._extract_learning`, capped at 5. -/
def extract_learning (events : List Event) : List String :=
  (events.flatMap (fun e =>
    let keyInfo : Event :=
      match Event.get e ("key_info") with
      | some (PyVal.vdict xs) => xs
      | _ => []
    (if e.getStr ("category") = ("documentation") then
      [("Reviewed documentation: ") ++ pyDisplay (keyInfo.getD ("file") (.vstr ("Unknown")))]
     else [])
    ++ (let s := e.getD ("session") .vnone
        if pyTruthy s ∧ pyBeq (Categorizer.svGetD s ("type") .vnone) (.vstr ("learning")) then
          [("Learning session (")
            ++ toString (pyAsIntD (Categorizer.svGetD s ("duration") (.vint 0)) 0 / 60)
            ++ (" minutes)")]
        else [])
    ++ (let ec := e.getD ("external_changes") .vnone
        if pyTruthy ec ∧ pyTruthy (Categorizer.svGetD ec ("patterns_introduced") .vnone) then
          [("New patterns introduced from team code")]
        else []))).take 5

/-- The `lines` list `_generate_text_summary` builds: the fixed
section template in source order (time range → activities → decisions
→ problems → external → learning). -/
def summaryLines (summary : Event) : List String :=
  let timeRange : Event :=
    match Event.get summary ("time_range") with
    | some (PyVal.vdict xs) => xs
    | _ => []
  let asList : PyVal → List PyVal := fun v =>
    match v with
    | .vlist xs => xs
    | _ => []
  let activities := asList (summary.getD ("key_activities") (.vlist []))
  let decisions := asList (summary.getD ("decisions") (.vlist []))
  let problems := asList (summary.getD ("problems_solved") (.vlist []))
  let external := asList (summary.getD ("external_changes") (.vlist []))
  let learning := asList (summary.getD ("learning") (.vlist []))
  let lines : List String :=
    (if !timeRange.isEmpty && pyTruthy (timeRange.getD ("duration_minutes") .vnone) then
      [("Activity period: ") ++ pyDisplay (timeRange.getD ("duration_minutes") (.vint 0))
        ++ (" minutes")]
     else [])
    ++ (if !activities.isEmpty then
        [("\nKey activities (") ++ toString activities.length ++ ("):")]
        ++ (activities.take 3).map (fun a =>
          ("  • ") ++ pyDisplay (Categorizer.svGetD a ("description") (.vstr ("Unknown activity"))))
       else [])
    ++ (if !decisions.isEmpty then
        [("\nDecisions made (") ++ toString decisions.length ++ ("):")]
        ++ (decisions.take 3).map (fun d => ("  • ") ++ pyDisplay d)
       else [])
    ++ (if !problems.isEmpty then
        [("\nProblems solved (") ++ toString problems.length ++ ("):")]
        ++ (problems.take 2).map (fun p =>
          ("  • ") ++ pyDisplay (Categorizer.svGetD p ("problem") (.vstr ("Unknown")))
            ++ (" → ") ++ pyDisplay (Categorizer.svGetD p ("solution") (.vstr ("Resolved"))))
       else [])
    ++ (if !external.isEmpty then
        [("\nIntegrated ")
          ++ toString (external.foldl
               (fun acc e => acc + pyAsIntD (Categorizer.svGetD e ("count") (.vint 0)) 0) 0)
          ++ (" external commits")]
       else [])
    ++ (if !learning.isEmpty then
        [("\nLearning moments:")]
        ++ (learning.take 2).map (fun l => ("  • ") ++ pyDisplay l)
       else [])
  lines

/-- `Summarizer._generate_text_summary`: `'\n'.join(lines)` when any
section produced lines, else the `"No summary available"` fallback. -/
def generate_text_summary (summary : Event) : String :=
  if (summaryLines summary).isEmpty then ("No summary available")
  else String.intercalate ("\n") (summaryLines summary)

/-- `categories` grouping: `defaultdict(list)` keyed by category in
first-seen order. -/
def groupCategories (events : List Event) : List (String × PyVal) :=
  events.foldl (fun (acc : List (String × PyVal)) (e : Event) =>
    let cv := Event.getD e ("category") (.vstr ("general"))
    let c := match cv with
      | PyVal.vstr s => s
      | _ => ("general")
    match dlookup acc c with
    | some (PyVal.vlist xs) => dinsert acc c (.vlist (xs ++ [.vdict e]))
    | _ => dinsert acc c (.vlist [.vdict e])) []

/-- `Summarizer._rule_based_summarize` (= `summarize` in Phase 1):
assemble the summary dict in source insertion order and attach the
rendered text block. -/
def summarize (now : String) (events : List Event) : Event :=
  let summary : Event :=
    [(("timestamp"), .vstr now),
     (("event_count"), .vint (Int.ofNat events.length)),
     (("time_range"), .vdict (get_time_range events)),
     (("categories"), .vdict (groupCategories events)),
     (("key_activities"), .vlist (extract_key_activities events)),
     (("decisions"), .vlist ((extract_decisions events).map PyVal.vstr)),
     (("problems_solved"), .vlist (extract_problems_solved events)),
     (("external_changes"), .vlist (extract_external_changes events)),
     (("learning"), .vlist ((extract_learning events).map PyVal.vstr))]
  summary.set ("text") (.vstr (generate_text_summary summary))

end Summarizer

/-! ## kb_daemon.py — `KBDaemon`

The scheduler loop `process_queue` runs one tick per second: decide
the dispatch triggers from the clock and the *pre-drain* buffer, drain
up to the 1000 cap, then dispatch when the trigger fired and the
(post-drain) buffer is non-empty.  `stop` (also invoked by the signal
handler, which then calls `sys.exit(0)`) only clears the run flag —
it performs no flush of the consumer thread's local buffer. -/

namespace KBDaemon

structure Config where
  process_interval : Nat
  batch_size : Nat
  min_importance : Int

structure SchedState where
  running : Bool
  buffer : List Event
  last_process_time : Nat
  processed : List (List Event)

/-- Python `importance >= min_importance` on the categorized events
(importance is an int there; a non-numeric value would raise). -/
def pyGeInt (v : PyVal) (k : Int) : Bool :=
  match v with
  | .vint n => k ≤ n
  | .vbool b => k ≤ (if b then (1 : Int) else 0)
  | _ => false

/-- `KBDaemon._process_events` from the categorization stage onward
(the preceding project tagging only decorates the incoming batch and
is performed by an out-of-scope collaborator): categorize, filter by
`min_importance`, then either store one summary (more than 5
important events) or the individual events (1–5), or nothing. -/
structure ProcessOutcome where
  window : List Event
  stored_events : List Event
  stored_summary : Option Event

def process_events (pats : Categorizer.Patterns) (minImp : Int) (now : String)
    (window : List Event) (events : List Event) : ProcessOutcome :=
  let r := Categorizer.categorize_batch pats window events
  let important := r.2.filter (fun e => pyGeInt (Event.getD e ("importance") (.vint 0)) minImp)
  if important.isEmpty then ⟨r.1, [], none⟩
  else if 5 < important.length then ⟨r.1, [], some (Summarizer.summarize now important)⟩
  else ⟨r.1, important, none⟩

/-- One iteration of `KBDaemon.process_queue`: `should_process` is
computed from the clock and the buffer *before* this tick's drain;
the drain tops the buffer up to at most 1000 items; the batch is
dispatched (and the clock reset) only when the trigger fired and the
post-drain buffer is non-empty. -/
def process_queue_tick (cfg : Config) (st : SchedState) (now : Nat)
    (queue : List Event) : SchedState × List Event :=
  let should := (cfg.process_interval ≤ now - st.last_process_time)
    || (cfg.batch_size ≤ st.buffer.length)
  let room := 1000 - st.buffer.length
  let buf := st.buffer ++ queue.take room
  let rest := queue.drop room
  if should && !buf.isEmpty then
    ({ st with buffer := [], last_process_time := now,
               processed := st.processed ++ [buf] }, rest)
  else
    ({ st with buffer := buf }, rest)

/-- The `while self.running` scheduler loop over a schedule of
(clock, freshly queued events) ticks; once the run flag is cleared
the loop exits and no further tick runs. -/
def run_loop (cfg : Config) : SchedState → List (Nat × List Event) → SchedState
  | st, [] => st
  | st, (now, q) :: rest =>
    if st.running then run_loop cfg (process_queue_tick cfg st now q).1 rest
    else st

/-- `KBDaemon.stop` as the signal handler invokes it: clear the run
flag (the monitors and the PID file are outside the event model); no
buffered event is processed, and `sys.exit(0)` follows immediately. -/
def daemon_stop (st : SchedState) : SchedState :=
  { st with running := false }

end KBDaemon

/-! ## storage/db_manager.py — `DatabaseManager`

The SQLite store, after `_init_database` and `_upgrade_schema` have
run (so the `reviewed` column always exists and `store_event` takes
its reviewed-aware branch).  JSON columns hold `json.dumps` of
pipeline values; `json.loads` of such a dump returns an equal value
for every `PyVal` shape, so those columns keep the value itself.
`sqlBind` is the `sqlite3` parameter adaptation (bools become the
integers 0/1; strings, ints and `None` pass through). -/

namespace Store

/-- `sqlite3` parameter binding of the primitive values the daemon
stores (a list or dict parameter would raise and is always dumped to
JSON first by the source). -/
def sqlBind : PyVal → PyVal
  | .vbool b => .vint (if b then 1 else 0)
  | v => v

/-- SQLite `col >= ?` for an integer parameter: `NULL` compares as
unknown (row excluded), integers numerically, and TEXT sorts after
every integer (SQLite's cross-type ordering). -/
def sqlGeInt (v : PyVal) (k : Int) : Bool :=
  match v with
  | .vint n => k ≤ n
  | .vstr _ => true
  | _ => false

/-- SQLite ordering for `ORDER BY ... DESC` on the stored column
values (`NULL < INTEGER < TEXT`). -/
def sqlDescLe (a b : PyVal) : Bool :=
  let rank : PyVal → Nat := fun v =>
    match v with
    | .vnone => 0
    | .vint _ => 1
    | .vstr _ => 2
    | _ => 3
  match a, b with
  | .vint x, .vint y => y ≤ x
  | .vstr x, .vstr y => lexLe y.data x.data
  | x, y => rank y ≤ rank x

structure StoredEvent where
  id : Nat
  timestamp : PyVal
  etype : PyVal
  category : PyVal
  importance : PyVal
  data : PyVal
  key_info : PyVal
  session : PyVal
  reviewed : Bool
  review_date : Option String

structure KbRow where
  id : Nat
  timestamp : PyVal
  category : PyVal
  title : PyVal
  content : PyVal
  tags : PyVal
  relations : PyVal
  approved : PyVal

structure DbState where
  events : List StoredEvent
  nextEventId : Nat
  kb : List KbRow
  nextKbId : Nat
  summaries : List Event
  reviewSessions : Nat

/-- A freshly initialised database (SQLite row ids start at 1). -/
def emptyDb : DbState :=
  ⟨[], 1, [], 1, [], 0⟩

/-- `DatabaseManager.store_event` (reviewed-aware branch): insert the
seven projected columns plus `reviewed = 0`; every other key of the
event dict is simply not stored.  `session` is dumped only when
truthy, else NULL. -/
def store_event (s : DbState) (e : Event) : DbState :=
  { s with
    events := s.events ++ [{
      id := s.nextEventId,
      timestamp := sqlBind (Event.getD e ("timestamp") .vnone),
      etype := sqlBind (Event.getD e ("type") .vnone),
      category := sqlBind (Event.getD e ("category") .vnone),
      importance := sqlBind (Event.getD e ("importance") .vnone),
      data := Event.getD e ("data") (.vdict []),
      key_info := Event.getD e ("key_info") (.vdict []),
      session := if pyTruthy (Event.getD e ("session") .vnone)
        then Event.getD e ("session") .vnone else .vnone,
      reviewed := false,
      review_date := none }],
    nextEventId := s.nextEventId + 1 }

/-- Row → event dict as `get_unreviewed_events` (and
`get_recent_events`) reconstructs it: exactly the eight selected
columns, JSON columns loaded back. -/
def rowToEvent (r : StoredEvent) : Event :=
  [(("id"), .vint (Int.ofNat r.id)),
   (("timestamp"), r.timestamp),
   (("type"), r.etype),
   (("category"), r.category),
   (("importance"), r.importance),
   (("data"), r.data),
   (("key_info"), r.key_info),
   (("session"), r.session)]

/-- `DatabaseManager.get_unreviewed_events`: `reviewed = 0 AND
importance >= ?`, newest (timestamp) first. -/
def get_unreviewed_events (s : DbState) (minImportance : Int) : List Event :=
  ((List.insertionSort
      (fun a b : StoredEvent => sqlDescLe a.timestamp b.timestamp = true)
      (s.events.filter (fun r => !r.reviewed && sqlGeInt r.importance minImportance))).map
    rowToEvent)

/-- `DatabaseManager.mark_events_reviewed`: one `review_date` value is
computed for the whole call and every listed id is updated with it. -/
def mark_events_reviewed (s : DbState) (ids : List Nat) (now : String) : DbState :=
  { s with events := s.events.map (fun r =>
      if ids.contains r.id then { r with reviewed := true, review_date := some now }
      else r) }

/-- `DatabaseManager.create_kb_entry`: the `approved` column is bound
from the entry's own `approved` field, `False` only when absent. -/
def create_kb_entry (s : DbState) (entry : Event) (now : String) : DbState × Nat :=
  ({ s with
     kb := s.kb ++ [{
       id := s.nextKbId,
       timestamp := sqlBind (Event.getD entry ("timestamp") (.vstr now)),
       category := sqlBind (Event.getD entry ("category") .vnone),
       title := sqlBind (Event.getD entry ("title") .vnone),
       content := sqlBind (Event.getD entry ("content") .vnone),
       tags := Event.getD entry ("tags") (.vlist []),
       relations := Event.getD entry ("relations") (.vlist []),
       approved := sqlBind (Event.getD entry ("approved") (.vbool false)) }],
     nextKbId := s.nextKbId + 1 }, s.nextKbId)

/-- `DatabaseManager.approve_kb_entry`. -/
def approve_kb_entry (s : DbState) (entryId : Nat) : DbState :=
  { s with kb := s.kb.map (fun r =>
      if r.id = entryId then { r with approved := .vint 1 } else r) }

/-- `DatabaseManager.delete_kb_entry`. -/
def delete_kb_entry (s : DbState) (entryId : Nat) : DbState :=
  { s with kb := s.kb.filter (fun r => r.id ≠ entryId) }

/-- Pending row → dict as `get_pending_kb_entries` reconstructs it
(`approved` read back through Python `bool(...)`). -/
def kbRowToEntry (r : KbRow) : Event :=
  [(("id"), .vint (Int.ofNat r.id)),
   (("timestamp"), r.timestamp),
   (("category"), r.category),
   (("title"), r.title),
   (("content"), r.content),
   (("tags"), r.tags),
   (("relations"), r.relations),
   (("approved"), .vbool (pyTruthy r.approved))]

/-- SQLite `approved = 0`: true exactly for the stored integer 0. -/
def sqlEqZero (v : PyVal) : Bool :=
  match v with
  | .vint n => n == 0
  | _ => false

/-- `DatabaseManager.get_pending_kb_entries`: `approved = 0`, newest
first. -/
def get_pending_kb_entries (s : DbState) : List Event :=
  ((List.insertionSort
      (fun a b : KbRow => sqlDescLe a.timestamp b.timestamp = true)
      (s.kb.filter (fun r => sqlEqZero r.approved))).map kbRowToEntry)

/-- `DatabaseManager.store_summary` (summaries table, append-only; the
projected columns are irrelevant to the claims, the row is kept
whole). -/
def store_summary (s : DbState) (summary : Event) : DbState :=
  { s with summaries := s.summaries ++ [summary] }

/-- `DatabaseManager.create_review_session` (append-only audit row). -/
def create_review_session (s : DbState) : DbState :=
  { s with reviewSessions := s.reviewSessions + 1 }

/-- The store's write API, for quantifying over every sequence of
subsequent operations. -/
inductive DbOp where
  | storeEvent (e : Event)
  | markReviewed (ids : List Nat) (now : String)
  | createKb (entry : Event) (now : String)
  | approveKb (entryId : Nat)
  | deleteKb (entryId : Nat)
  | storeSummary (summary : Event)
  | reviewSession

def applyOp (s : DbState) : DbOp → DbState
  | .storeEvent e => store_event s e
  | .markReviewed ids now => mark_events_reviewed s ids now
  | .createKb entry now => (create_kb_entry s entry now).1
  | .approveKb i => approve_kb_entry s i
  | .deleteKb i => delete_kb_entry s i
  | .storeSummary sm => store_summary s sm
  | .reviewSession => create_review_session s

def applyOps (s : DbState) (ops : List DbOp) : DbState :=
  ops.foldl applyOp s

end Store

/-! ## The specified dispatch condition (§4.1 / §8 of the spec)

Stated from the spec's words, for comparison with
`KBDaemon.process_queue_tick`: "a batch is dispatched when the buffer
is non-empty and (elapsed time since the last dispatch ≥
process_interval, or buffer size ≥ batch_size)" — one buffer
snapshot, the batch being dispatched. -/
def spec_dispatch (cfg : KBDaemon.Config) (elapsed : Nat) (buffer : List Event) : Bool :=
  !buffer.isEmpty
    && ((cfg.process_interval ≤ elapsed) || (cfg.batch_size ≤ buffer.length))

/-! ## Concrete fixtures -/

/-- Importance-range check on a categorized event (`0 <= importance <= 10`,
as an integer). -/
def importance_ok_out (e : Event) : Bool :=
  match Event.get e ("importance") with
  | some (PyVal.vint i) => decide (0 ≤ i) && decide (i ≤ 10)
  | _ => false

/-- Importance-range check on an incoming event: absent, or an integer
in `[0, 10]`. -/
def importance_ok_in (e : Event) : Bool :=
  match Event.get e ("importance") with
  | none => true
  | some (PyVal.vint i) => decide (0 ≤ i) && decide (i ≤ 10)
  | some _ => false

/-- All configured category base weights lie in `[0, 10]`. -/
def factors_ok (pats : Categorizer.Patterns) : Bool :=
  pats.importance_factors.all (fun p => decide (0 ≤ p.2) && decide (p.2 ≤ 10))

/-- Empty pattern configuration (no detection rules, no factors). -/
def pats0 : Categorizer.Patterns := ⟨[], []⟩

/-- Scenario 2's first event: `npm test` failing. -/
def npmFail : Event :=
  [(("type"), .vstr ("shell_command")),
   (("timestamp"), .vstr ("2024-01-01T10:00:00Z")),
   (("data"), .vdict [(("command"), .vstr ("npm")), (("args"), .vstr ("test")),
                      (("exit_code"), .vint 1), (("duration"), .vint 0),
                      (("working_dir"), .vstr ("/home/dev/app"))])]

/-- Scenario 2's second event: the same `npm test` succeeding. -/
def npmPass : Event :=
  [(("type"), .vstr ("shell_command")),
   (("timestamp"), .vstr ("2024-01-01T10:05:00Z")),
   (("data"), .vdict [(("command"), .vstr ("npm")), (("args"), .vstr ("test")),
                      (("exit_code"), .vint 0), (("duration"), .vint 0),
                      (("working_dir"), .vstr ("/home/dev/app"))])]

/-- The shell monitor's processing of scenario 2 (fresh monitor state,
empty `track_commands`; both events are tracked through the
important-command heuristic). -/
def shellScenario2 : Option Event :=
  let r1 := ShellMonitor.process_command ⟨[], [], none⟩ npmFail
  (ShellMonitor.process_command r1.1 npmPass).2

/-- An event arriving with an out-of-range importance already set. -/
def imp42 : Event :=
  [(("type"), .vstr ("note")), (("category"), .vstr ("general")),
   (("importance"), .vint 42), (("data"), .vdict [])]

/-- A `git_commit`-categorized event whose message carries `WIP`. -/
def wipEv : Event :=
  [(("type"), .vstr ("git_commit")),
   (("timestamp"), .vstr ("2024-03-01T09:00:00Z")),
   (("category"), .vstr ("git_commit")),
   (("data"), .vdict [(("message"), .vstr ("WIP: refactor auth"))])]

/-- First categorization pass over the WIP event. -/
def wipPass1 : List Event := (Categorizer.categorize_batch pats0 [] [wipEv]).2

/-- Second categorization pass over the first pass's output, from the
same (empty) initial window. -/
def wipPass2 : List Event := (Categorizer.categorize_batch pats0 [] wipPass1).2

/-- A benign already-categorized event (no WIP, no error flags). -/
def calmEv : Event :=
  [(("type"), .vstr ("note")), (("timestamp"), .vstr ("2024-03-01T09:00:00Z")),
   (("category"), .vstr ("general")), (("importance"), .vint 5),
   (("data"), .vdict [])]

/-- An event carrying a top-level flag (`is_error`) that the store's
column projection drops. -/
def errEv : Event :=
  [(("timestamp"), .vstr ("2024-02-02T12:00:00Z")),
   (("type"), .vstr ("shell_command")),
   (("category"), .vstr ("testing")),
   (("importance"), .vint 8),
   (("data"), .vdict [(("command"), .vstr ("npm"))]),
   (("key_info"), .vdict []),
   (("is_error"), .vbool true)]

/-- A KB entry argument that arrives with `approved` already true. -/
def preApprovedEntry : Event :=
  [(("title"), .vstr ("Use pnpm for installs")),
   (("timestamp"), .vstr ("2024-02-02T12:00:00Z")),
   (("approved"), .vbool true)]

/-- A plain KB entry argument (no `approved` field). -/
def plainEntry : Event :=
  [(("title"), .vstr ("Retry flaky tests once")),
   (("timestamp"), .vstr ("2024-02-03T12:00:00Z"))]

/-- Scheduler configuration for the dispatch fixtures. -/
def cfg0 : KBDaemon.Config := ⟨300, 10, 3⟩

/-- A running scheduler with an empty buffer, clock at 0. -/
def sched0 : KBDaemon.SchedState := ⟨true, [], 0, []⟩

/-- Ten queued events arriving within one tick. -/
def tenEvents : List Event :=
  (List.range 10).map (fun i =>
    [(("type"), .vstr ("file_change")),
     (("data"), .vdict [(("path"), .vstr (("/src/f") ++ toString i))])])

/-- Two events 25 hours apart (their difference exceeds one day). -/
def daySpanEvents : List Event :=
  [[(("timestamp"), .vstr ("2024-01-01T00:00:00Z"))],
   [(("timestamp"), .vstr ("2024-01-02T01:00:00Z"))]]

/-- Six high-importance events (summarization-triggering batch). -/
def sixEvents : List Event :=
  (List.range 6).map (fun i =>
    [(("type"), .vstr ("note")),
     (("timestamp"), .vstr ("2024-01-01T10:00:00Z")),
     (("category"), .vstr ("general")),
     (("importance"), .vint 7),
     (("data"), .vdict [(("n"), .vint (Int.ofNat i))])])

/-- A running scheduler holding one buffered event, clock at 0. -/
def schedW : KBDaemon.SchedState := ⟨true, [calmEv], 0, []⟩

/-- A store operation that neither approves nor deletes the KB entry
with the given id (used to state that a never-approved entry stays
pending under every such operation sequence). -/
def opAvoidsKb (i : Nat) : Store.DbOp → Prop
  | .approveKb j => ¬(j = i)
  | .deleteKb j => ¬(j = i)
  | _ => True

/-- A store holding two stored events (ids 1 and 2). -/
def dbTwo : Store.DbState :=
  Store.store_event (Store.store_event Store.emptyDb errEv) errEv

/-- The shared review-date string of a `mark_events_reviewed` call. -/
def markDate : String := "2024-02-03T00:00:00+00:00"

/-- The summary timestamp (`utcnow`) of the C9 witness batch. -/
def nowStr : String := "2024-01-01T12:00:00Z"

/-- The importance-filtered categorization of the six-event batch. -/
def sixImportant : List Event :=
  (Categorizer.categorize_batch pats0 [] sixEvents).2.filter
    (fun e => KBDaemon.pyGeInt (Event.getD e ("importance") (.vint 0)) 3)

/-- `_process_events` on the six-event batch. -/
def sixOutcome : KBDaemon.ProcessOutcome :=
  KBDaemon.process_events pats0 3 nowStr [] sixEvents

/-! # Theorems -/

theorem dlookup_dinsert (xs : List (String × PyVal)) (k : String) (v : PyVal)
    (k2 : String) :
    dlookup (dinsert xs k v) k2 = if k = k2 then some v else dlookup xs k2 := by
  induction xs with
  | nil => rfl
  | cons hd tl ih =>
    obtain ⟨a, b⟩ := hd
    by_cases hak : a = k
    · subst hak
      simp only [dinsert, if_pos rfl, dlookup]
      by_cases hk2 : a = k2 <;> simp [hk2]
    · simp only [dinsert, if_neg hak, dlookup, ih]
      by_cases hk2 : a = k2
      · subst hk2
        simp [Ne.symm hak]
      · simp [hk2]

theorem dlookup_dinsert_same (xs : List (String × PyVal)) (k : String) (v : PyVal) :
    dlookup (dinsert xs k v) k = some v := by
  simp [dlookup_dinsert]

theorem dinsert_of_lookup (xs : List (String × PyVal)) (k : String) (v : PyVal)
    (h : dlookup xs k = some v) : dinsert xs k v = xs := by
  induction xs with
  | nil => simp [dlookup] at h
  | cons hd tl ih =>
    obtain ⟨a, b⟩ := hd
    by_cases hak : a = k
    · subst hak
      simp [dlookup] at h
      simp [dinsert, h]
    · simp [dlookup, hak] at h
      simp [dinsert, hak, ih h]

theorem get_set (e : Event) (k : String) (v : PyVal) (k2 : String) :
    Event.get (Event.set e k v) k2 = if k = k2 then some v else Event.get e k2 :=
  dlookup_dinsert e k v k2

theorem get_set_same (e : Event) (k : String) (v : PyVal) :
    Event.get (Event.set e k v) k = some v := by
  simp [get_set]

theorem get_set_ne (e : Event) (k : String) (v : PyVal) (k2 : String)
    (h : ¬(k = k2)) : Event.get (Event.set e k v) k2 = Event.get e k2 := by
  simp [get_set, h]

theorem getD_set_ne (e : Event) (k : String) (v : PyVal) (k2 : String) (d : PyVal)
    (h : ¬(k = k2)) : Event.getD (Event.set e k v) k2 d = Event.getD e k2 d := by
  simp [Event.getD, Event.get, Event.set] at *
  rw [dlookup_dinsert, if_neg h]

theorem getStr_set_ne (e : Event) (k : String) (v : PyVal) (k2 : String)
    (h : ¬(k = k2)) : Event.getStr (Event.set e k v) k2 = Event.getStr e k2 := by
  simp only [Event.getStr, Event.set]
  rw [dlookup_dinsert, if_neg h]

theorem getDict_set_ne (e : Event) (k : String) (v : PyVal) (k2 : String)
    (h : ¬(k = k2)) : Event.getDict (Event.set e k v) k2 = Event.getDict e k2 := by
  simp only [Event.getDict, Event.set]
  rw [dlookup_dinsert, if_neg h]

theorem hasKey_set (e : Event) (k : String) (v : PyVal) (k2 : String) :
    Event.hasKey (Event.set e k v) k2 = (k = k2 || Event.hasKey e k2) := by
  simp only [Event.hasKey, Event.set]
  rw [dlookup_dinsert]
  by_cases h : k = k2 <;> simp [h]

/-- C1: the spec requires a signal-triggered shutdown to flush any
non-empty in-memory buffer through the pipeline before exit.  The
code's `stop` (invoked by `_signal_handler`, which then exits the
process) only clears the run flag: after it, no scheduler tick ever
runs again, so whatever the buffer held at signal time is never
dispatched — the processed-batch history is frozen and the buffered
events are dropped. -/
theorem C1_signal_never_flushes_buffer (cfg : KBDaemon.Config)
    (st : KBDaemon.SchedState) (ticks : List (Nat × List Event)) :
    (KBDaemon.run_loop cfg (KBDaemon.daemon_stop st) ticks).processed = st.processed
    ∧ (KBDaemon.run_loop cfg (KBDaemon.daemon_stop st) ticks).buffer = st.buffer
    ∧ (KBDaemon.run_loop cfg (KBDaemon.daemon_stop st) ticks).running = false := by
  cases ticks <;> simp [KBDaemon.run_loop, KBDaemon.daemon_stop]

/-- C2: in scenario 2 (`npm test` failing, then the same command
succeeding), the monitor's processing of the second event never sets
`fixes_error` and leaves importance at 6: the error-fix check is
nested inside the non-zero-exit branch, which the succeeding command
does not enter. -/
theorem C2_second_npm_test_not_flagged :
    shellScenario2.isSome = true
    ∧ (shellScenario2.bind (fun e => Event.get e ("fixes_error")) = none)
    ∧ (shellScenario2.bind (fun e => Event.get e ("importance")) = some (.vint 6)) :=
  ⟨rfl, rfl, rfl⟩

/-- C6 (counterexample): with `batch_size = 10`, an empty pre-drain
buffer, and ten events arriving in the tick (so the post-drain buffer
reaches `batch_size`) before `process_interval` elapses, the spec's
single-snapshot dispatch condition holds for the post-drain buffer
yet the tick dispatches nothing — `should_process` was computed from
the pre-drain buffer. -/
theorem C6_size_trigger_counterexample :
    (KBDaemon.process_queue_tick cfg0 sched0 1 tenEvents).1.processed
      = ([] : List (List Event))
    ∧ spec_dispatch cfg0 (1 - sched0.last_process_time)
        (sched0.buffer ++ tenEvents.take (1000 - sched0.buffer.length)) = true
    ∧ (KBDaemon.process_queue_tick cfg0 sched0 1 tenEvents).1.buffer = tenEvents :=
  ⟨rfl, rfl, rfl⟩

/-- C6 (amended): in every tick, a batch is dispatched exactly when
the post-drain buffer is non-empty and (the interval elapsed, or the
*pre-drain* buffer already held `batch_size` events — items drained
this tick count toward the size trigger only from the next tick on);
a dispatch hands off exactly the post-drain buffer and resets the
clock, and a tick without dispatch leaves the clock untouched and
keeps the drained buffer. -/
theorem C6_dispatch_characterization (cfg : KBDaemon.Config)
    (st : KBDaemon.SchedState) (now : Nat) (queue : List Event) :
    (((!(st.buffer ++ queue.take (1000 - st.buffer.length)).isEmpty)
        && ((cfg.process_interval ≤ now - st.last_process_time)
            || (cfg.batch_size ≤ st.buffer.length))) = true →
      (KBDaemon.process_queue_tick cfg st now queue).1.processed
          = st.processed ++ [st.buffer ++ queue.take (1000 - st.buffer.length)]
        ∧ (KBDaemon.process_queue_tick cfg st now queue).1.buffer = []
        ∧ (KBDaemon.process_queue_tick cfg st now queue).1.last_process_time = now)
    ∧ (((!(st.buffer ++ queue.take (1000 - st.buffer.length)).isEmpty)
        && ((cfg.process_interval ≤ now - st.last_process_time)
            || (cfg.batch_size ≤ st.buffer.length))) = false →
      (KBDaemon.process_queue_tick cfg st now queue).1.processed = st.processed
        ∧ (KBDaemon.process_queue_tick cfg st now queue).1.buffer
            = st.buffer ++ queue.take (1000 - st.buffer.length)
        ∧ (KBDaemon.process_queue_tick cfg st now queue).1.last_process_time
            = st.last_process_time)
    ∧ ((KBDaemon.process_queue_tick cfg st now queue).1.processed ≠ st.processed
        ↔ ((!(st.buffer ++ queue.take (1000 - st.buffer.length)).isEmpty)
            && ((cfg.process_interval ≤ now - st.last_process_time)
                || (cfg.batch_size ≤ st.buffer.length))) = true) := by
  simp only [KBDaemon.process_queue_tick]
  by_cases h : ((cfg.process_interval ≤ now - st.last_process_time)
      || (cfg.batch_size ≤ st.buffer.length))
      && !(st.buffer ++ queue.take (1000 - st.buffer.length)).isEmpty
  · rw [if_pos h]
    rw [Bool.and_comm] at h
    simp [h]
  · rw [if_neg h]
    rw [Bool.and_comm] at h
    simp only [Bool.not_eq_true] at h
    simp [h]

/-- Witness for C6: a tick whose interval has elapsed over a one-event
buffer dispatches exactly that buffer and resets the clock. -/
theorem C6_dispatch_witness :
    (KBDaemon.process_queue_tick cfg0 schedW 400 []).1.processed
        = schedW.processed ++ [schedW.buffer ++ ([] : List Event).take (1000 - schedW.buffer.length)]
      ∧ (KBDaemon.process_queue_tick cfg0 schedW 400 []).1.buffer = []
      ∧ (KBDaemon.process_queue_tick cfg0 schedW 400 []).1.last_process_time = 400 :=
  (C6_dispatch_characterization cfg0 schedW 400 []).1 rfl

theorem getD_eq_of_get (e : Event) (k : String) (v d : PyVal)
    (h : Event.get e k = some v) : Event.getD e k d = v := by
  simp only [Event.getD, Event.get] at *
  rw [h]
  rfl

/-- C5 (counterexample): an event carrying a top-level `is_error` flag
loses it through the store round-trip — `store_event` projects the
event onto seven fixed columns and the read-back record has no
`is_error` field at all. -/
theorem C5_round_trip_counterexample :
    Event.get errEv ("is_error") = some (.vbool true)
    ∧ ((Store.get_unreviewed_events (Store.store_event Store.emptyDb errEv) 3).head?.bind
        (fun e => Event.get e ("is_error")) = none)
    ∧ (Store.get_unreviewed_events (Store.store_event Store.emptyDb errEv) 3).length = 1 :=
  ⟨rfl, rfl, rfl⟩

/-- C5 (amended): the round-trip preserves exactly the seven stored
fields — timestamp, type, category, importance, data, key_info, and
session when the event carries a truthy one (a falsy/absent session
reads back as `None`); the store assigns the id and sets
`reviewed = false`; every other top-level field (e.g. `is_error`,
`fixes_error`, `subcategory`, `project`) is dropped. -/
theorem C5_round_trip_amended (s : Store.DbState) (e : Event) (minImp : Int)
    (ts ty c : String) (i : Int) (dv kv : PyVal)
    (hts : Event.get e ("timestamp") = some (.vstr ts))
    (hty : Event.get e ("type") = some (.vstr ty))
    (hc : Event.get e ("category") = some (.vstr c))
    (hi : Event.get e ("importance") = some (.vint i))
    (hmin : minImp ≤ i)
    (hd : Event.get e ("data") = some dv)
    (hk : Event.get e ("key_info") = some kv) :
    (∃ row ∈ (Store.store_event s e).events, row.id = s.nextEventId ∧ row.reviewed = false)
    ∧ ∃ r ∈ Store.get_unreviewed_events (Store.store_event s e) minImp,
        Event.get r ("id") = some (.vint (Int.ofNat s.nextEventId))
        ∧ Event.get r ("timestamp") = Event.get e ("timestamp")
        ∧ Event.get r ("type") = Event.get e ("type")
        ∧ Event.get r ("category") = Event.get e ("category")
        ∧ Event.get r ("importance") = Event.get e ("importance")
        ∧ Event.get r ("data") = Event.get e ("data")
        ∧ Event.get r ("key_info") = Event.get e ("key_info")
        ∧ (pyTruthy (Event.getD e ("session") .vnone) = true →
            Event.get r ("session") = some (Event.getD e ("session") .vnone))
        ∧ (pyTruthy (Event.getD e ("session") .vnone) = false →
            Event.get r ("session") = some .vnone)
        ∧ (∀ k, ¬(k = ("id")) → ¬(k = ("timestamp")) → ¬(k = ("type")) →
            ¬(k = ("category")) → ¬(k = ("importance")) → ¬(k = ("data")) →
            ¬(k = ("key_info")) → ¬(k = ("session")) → Event.get r k = none) := by
  have hgts := getD_eq_of_get e ("timestamp") _ .vnone hts
  have hgty := getD_eq_of_get e ("type") _ .vnone hty
  have hgc := getD_eq_of_get e ("category") _ .vnone hc
  have hgi := getD_eq_of_get e ("importance") _ .vnone hi
  have hgd := getD_eq_of_get e ("data") _ (.vdict []) hd
  have hgk := getD_eq_of_get e ("key_info") _ (.vdict []) hk
  constructor
  · exact ⟨_, List.mem_append_right _ (List.mem_singleton_self _), rfl, rfl⟩
  · have hfil : (!(false : Bool)
        && Store.sqlGeInt (Store.sqlBind (Event.getD e ("importance") .vnone)) minImp)
          = true := by
      simp only [hgi, Store.sqlBind, Store.sqlGeInt, Bool.not_false, Bool.true_and]
      simp [hmin]
    have hmem : Store.rowToEvent
        { id := s.nextEventId,
          timestamp := Store.sqlBind (Event.getD e ("timestamp") .vnone),
          etype := Store.sqlBind (Event.getD e ("type") .vnone),
          category := Store.sqlBind (Event.getD e ("category") .vnone),
          importance := Store.sqlBind (Event.getD e ("importance") .vnone),
          data := Event.getD e ("data") (.vdict []),
          key_info := Event.getD e ("key_info") (.vdict []),
          session := if pyTruthy (Event.getD e ("session") .vnone)
            then Event.getD e ("session") .vnone else .vnone,
          reviewed := false,
          review_date := none }
        ∈ Store.get_unreviewed_events (Store.store_event s e) minImp := by
      unfold Store.get_unreviewed_events
      apply List.mem_map_of_mem Store.rowToEvent
      apply (List.mem_insertionSort _).mpr
      apply List.mem_filter.mpr
      constructor
      · exact List.mem_append_right _ (List.mem_singleton_self _)
      · exact hfil
    refine ⟨_, hmem, ?_, ?_, ?_, ?_, ?_, ?_, ?_, ?_, ?_, ?_⟩
    · simp [Store.rowToEvent, Event.get, dlookup]
    · simp [Store.rowToEvent, Event.get, dlookup, hgts, Store.sqlBind]
      exact hts.symm
    · simp [Store.rowToEvent, Event.get, dlookup, hgty, Store.sqlBind]
      exact hty.symm
    · simp [Store.rowToEvent, Event.get, dlookup, hgc, Store.sqlBind]
      exact hc.symm
    · simp [Store.rowToEvent, Event.get, dlookup, hgi, Store.sqlBind]
      exact hi.symm
    · simp [Store.rowToEvent, Event.get, dlookup, hgd, Store.sqlBind]
      exact hd.symm
    · simp [Store.rowToEvent, Event.get, dlookup, hgk, Store.sqlBind]
      exact hk.symm
    · intro htr
      simp [Store.rowToEvent, Event.get, dlookup, htr]
    · intro hfa
      simp [Store.rowToEvent, Event.get, dlookup, hfa]
    · intro k h1 h2 h3 h4 h5 h6 h7 h8
      simp [Store.rowToEvent, Event.get, dlookup,
        Ne.symm h1, Ne.symm h2, Ne.symm h3, Ne.symm h4,
        Ne.symm h5, Ne.symm h6, Ne.symm h7, Ne.symm h8]

/-- Witness for C5: the amended round-trip at a concrete event. -/
theorem C5_round_trip_witness :
    (∃ row ∈ (Store.store_event Store.emptyDb errEv).events,
        row.id = Store.emptyDb.nextEventId ∧ row.reviewed = false)
    ∧ ∃ r ∈ Store.get_unreviewed_events (Store.store_event Store.emptyDb errEv) 3,
        Event.get r ("id") = some (.vint (Int.ofNat Store.emptyDb.nextEventId))
        ∧ Event.get r ("timestamp") = Event.get errEv ("timestamp")
        ∧ Event.get r ("type") = Event.get errEv ("type")
        ∧ Event.get r ("category") = Event.get errEv ("category")
        ∧ Event.get r ("importance") = Event.get errEv ("importance")
        ∧ Event.get r ("data") = Event.get errEv ("data")
        ∧ Event.get r ("key_info") = Event.get errEv ("key_info")
        ∧ (pyTruthy (Event.getD errEv ("session") .vnone) = true →
            Event.get r ("session") = some (Event.getD errEv ("session") .vnone))
        ∧ (pyTruthy (Event.getD errEv ("session") .vnone) = false →
            Event.get r ("session") = some .vnone)
        ∧ (∀ k, ¬(k = ("id")) → ¬(k = ("timestamp")) → ¬(k = ("type")) →
            ¬(k = ("category")) → ¬(k = ("importance")) → ¬(k = ("data")) →
            ¬(k = ("key_info")) → ¬(k = ("session")) → Event.get r k = none) :=
  C5_round_trip_amended Store.emptyDb errEv 3
    ("2024-02-02T12:00:00Z") ("shell_command") ("testing") 8
    (.vdict [(("command"), .vstr ("npm"))]) (.vdict [])
    rfl rfl rfl rfl (by norm_num) rfl rfl

/-- C10: every session duration is an integer in `[0, 86400)` — the
difference of the extreme timestamps is taken through
`timedelta.seconds`, i.e. modulo one day — and the summary's
`duration_minutes` is correspondingly in `[0, 1440)`, even when the
events span more than 24 hours. -/
theorem C10_durations_discard_days (evs : List Event) :
    (0 ≤ Categorizer.calculate_session_duration evs
      ∧ Categorizer.calculate_session_duration evs < 86400)
    ∧ (2 ≤ (parsedTimestamps evs).length →
        Categorizer.calculate_session_duration evs
          = (listMax (parsedTimestamps evs) - listMin (parsedTimestamps evs)) % 86400)
    ∧ (∀ v, dlookup (Summarizer.get_time_range evs) ("duration_minutes") = some v →
        ∃ m : Int, v = .vint m ∧ 0 ≤ m ∧ m < 1440
          ∧ m = ((listMax (parsedTimestamps evs) - listMin (parsedTimestamps evs))
                  % 86400) / 60) := by
  refine ⟨?_, ?_, ?_⟩
  · simp only [Categorizer.calculate_session_duration, tdSeconds]
    split
    · exact ⟨Int.emod_nonneg _ (by norm_num), Int.emod_lt_of_pos _ (by norm_num)⟩
    · norm_num
  · intro h
    simp only [Categorizer.calculate_session_duration, tdSeconds]
    rw [if_pos h]
  · intro v hv
    simp only [Summarizer.get_time_range] at hv
    split at hv
    · simp [dlookup] at hv
    · simp only [dlookup, String.reduceEq, reduceIte, Option.some.injEq,
        tdSeconds] at hv
      have h1 := Int.emod_nonneg
        (listMax (parsedTimestamps evs) - listMin (parsedTimestamps evs))
        (show (86400 : Int) ≠ 0 by norm_num)
      have h2 := Int.emod_lt_of_pos
        (listMax (parsedTimestamps evs) - listMin (parsedTimestamps evs))
        (show (0 : Int) < 86400 by norm_num)
      exact ⟨_, hv.symm, by omega, by omega, rfl⟩

/-- Witness for C10: two events 25 hours apart give a session
duration of 3600 seconds (one day discarded), not 90000. -/
theorem C10_witness :
    (0 ≤ Categorizer.calculate_session_duration daySpanEvents
      ∧ Categorizer.calculate_session_duration daySpanEvents < 86400)
    ∧ Categorizer.calculate_session_duration daySpanEvents
        = (listMax (parsedTimestamps daySpanEvents)
            - listMin (parsedTimestamps daySpanEvents)) % 86400
    ∧ Categorizer.calculate_session_duration daySpanEvents = 3600 :=
  ⟨(C10_durations_discard_days daySpanEvents).1,
   (C10_durations_discard_days daySpanEvents).2.1 (by decide),
   rfl⟩

theorem reviewed_inv_applyOp (i : Nat) (s : Store.DbState) (op : Store.DbOp)
    (h1 : ∀ row ∈ s.events, row.id = i → row.reviewed = true)
    (h2 : i < s.nextEventId) :
    (∀ row ∈ (Store.applyOp s op).events, row.id = i → row.reviewed = true)
    ∧ i < (Store.applyOp s op).nextEventId := by
  cases op with
  | storeEvent e =>
    refine ⟨?_, by simp [Store.applyOp, Store.store_event]; omega⟩
    intro row hrow hid
    simp only [Store.applyOp, Store.store_event] at hrow
    rcases List.mem_append.mp hrow with h | h
    · exact h1 row h hid
    · have heq := List.mem_singleton.mp h
      subst heq
      simp only at hid
      omega
  | markReviewed ids now =>
    refine ⟨?_, h2⟩
    intro row hrow hid
    simp only [Store.applyOp, Store.mark_events_reviewed] at hrow
    rcases List.mem_map.mp hrow with ⟨r0, hr0, heq⟩
    by_cases hc : ids.contains r0.id
    · rw [if_pos hc] at heq
      subst heq
      rfl
    · rw [if_neg hc] at heq
      subst heq
      exact h1 r0 hr0 hid
  | createKb entry now => exact ⟨h1, h2⟩
  | approveKb j => exact ⟨h1, h2⟩
  | deleteKb j => exact ⟨h1, h2⟩
  | storeSummary sm => exact ⟨h1, h2⟩
  | reviewSession => exact ⟨h1, h2⟩

theorem reviewed_inv_applyOps (i : Nat) (s : Store.DbState) (ops : List Store.DbOp)
    (h1 : ∀ row ∈ s.events, row.id = i → row.reviewed = true)
    (h2 : i < s.nextEventId) :
    (∀ row ∈ (Store.applyOps s ops).events, row.id = i → row.reviewed = true)
    ∧ i < (Store.applyOps s ops).nextEventId := by
  induction ops generalizing s with
  | nil => exact ⟨h1, h2⟩
  | cons op rest ih =>
    have h := reviewed_inv_applyOp i s op h1 h2
    exact ih _ h.1 h.2

theorem unreviewed_excludes_id (s : Store.DbState) (minImp : Int) (i : Nat)
    (h1 : ∀ row ∈ s.events, row.id = i → row.reviewed = true) :
    ∀ r ∈ Store.get_unreviewed_events s minImp,
      ¬(Event.get r ("id") = some (.vint (Int.ofNat i))) := by
  intro r hr hcontra
  unfold Store.get_unreviewed_events at hr
  rcases List.mem_map.mp hr with ⟨row, hrow, heq⟩
  subst heq
  have hf := List.mem_filter.mp ((List.mem_insertionSort _).mp hrow)
  have hid : Event.get (Store.rowToEvent row) ("id")
      = some (.vint (Int.ofNat row.id)) := by
    simp [Store.rowToEvent, Event.get, dlookup]
  rw [hid] at hcontra
  have hinj := Option.some.inj hcontra
  have hrowid : row.id = i := by
    injection hinj with hinj2
    have h3 := congrArg Int.toNat hinj2
    simpa using h3
  have hrev := h1 row hf.1 hrowid
  have hnot := hf.2
  rw [hrev] at hnot
  simp at hnot

/-- C7: `markEventsReviewed(ids)` stamps every listed (existing) event
with `reviewed = true` and one single shared `review_date`; afterwards,
no matter what store operations follow, no id of that list is ever
returned again by `getUnreviewedEvents` at any importance floor. -/
theorem C7_mark_reviewed_permanent (s : Store.DbState) (ids : List Nat) (now : String)
    (minImp : Int) (ops : List Store.DbOp)
    (hids : ∀ i ∈ ids, i < s.nextEventId) :
    (∀ row ∈ (Store.mark_events_reviewed s ids now).events,
        row.id ∈ ids → row.reviewed = true ∧ row.review_date = some now)
    ∧ (∀ i ∈ ids, ∀ r ∈ Store.get_unreviewed_events
          (Store.applyOps (Store.mark_events_reviewed s ids now) ops) minImp,
        ¬(Event.get r ("id") = some (.vint (Int.ofNat i)))) := by
  constructor
  · intro row hrow hin
    simp only [Store.mark_events_reviewed] at hrow
    rcases List.mem_map.mp hrow with ⟨r0, hr0, heq⟩
    by_cases hc : ids.contains r0.id
    · rw [if_pos hc] at heq
      subst heq
      exact ⟨rfl, rfl⟩
    · rw [if_neg hc] at heq
      subst heq
      exact absurd (by simp [hin] : ids.contains r0.id = true) hc
  · intro i hi
    have hinv1 : ∀ row ∈ (Store.mark_events_reviewed s ids now).events,
        row.id = i → row.reviewed = true := by
      intro row hrow hid
      simp only [Store.mark_events_reviewed] at hrow
      rcases List.mem_map.mp hrow with ⟨r0, hr0, heq⟩
      by_cases hc : ids.contains r0.id
      · rw [if_pos hc] at heq
        subst heq
        rfl
      · rw [if_neg hc] at heq
        subst heq
        rw [hid] at hc
        exact absurd (by simp [hi] : ids.contains i = true) hc
    have hinv2 : i < (Store.mark_events_reviewed s ids now).nextEventId :=
      hids i hi
    have h := reviewed_inv_applyOps i _ ops hinv1 hinv2
    exact unreviewed_excludes_id _ minImp i h.1

/-- Witness for C7: mark id 1 of a two-event store, then store a
further event; id 1 never reappears in the unreviewed query. -/
theorem C7_mark_reviewed_witness :
    (∀ row ∈ (Store.mark_events_reviewed dbTwo [1] markDate).events,
        row.id ∈ [1] → row.reviewed = true ∧ row.review_date = some markDate)
    ∧ (∀ i ∈ [1], ∀ r ∈ Store.get_unreviewed_events
          (Store.applyOps (Store.mark_events_reviewed dbTwo [1] markDate)
            [Store.DbOp.storeEvent errEv]) 3,
        ¬(Event.get r ("id") = some (.vint (Int.ofNat i)))) :=
  C7_mark_reviewed_permanent dbTwo [1] markDate 3 [Store.DbOp.storeEvent errEv]
    (by
      intro i hi
      have := List.mem_singleton.mp hi
      subst this
      decide)

/-- C8 (counterexample): `create_kb_entry` binds the `approved` column
from the entry argument itself (`entry.get('approved', False)`), so an
entry arriving with `approved = True` is persisted already approved
and never appears in the pending query — the claim's "persists the
entry with approved=false for every entry argument" fails. -/
theorem C8_pre_approved_counterexample :
    Store.get_pending_kb_entries
        (Store.create_kb_entry Store.emptyDb preApprovedEntry markDate).1 = []
    ∧ ((Store.create_kb_entry Store.emptyDb preApprovedEntry markDate).1.kb.map
        (fun r => r.approved)) = [PyVal.vint 1] :=
  ⟨rfl, rfl⟩

theorem kb_pending_inv_applyOp (i : Nat) (s : Store.DbState) (op : Store.DbOp)
    (hav : opAvoidsKb i op)
    (h1 : ∃ r ∈ s.kb, r.id = i ∧ r.approved = .vint 0)
    (h2 : i < s.nextKbId) :
    (∃ r ∈ (Store.applyOp s op).kb, r.id = i ∧ r.approved = .vint 0)
    ∧ i < (Store.applyOp s op).nextKbId := by
  obtain ⟨r, hr, hid, hap⟩ := h1
  cases op with
  | storeEvent e => exact ⟨⟨r, hr, hid, hap⟩, h2⟩
  | markReviewed ids now => exact ⟨⟨r, hr, hid, hap⟩, h2⟩
  | createKb entry now =>
    refine ⟨⟨r, ?_, hid, hap⟩, ?_⟩
    · exact List.mem_append_left _ hr
    · simp only [Store.applyOp, Store.create_kb_entry]
      omega
  | approveKb j =>
    refine ⟨⟨r, ?_, hid, hap⟩, h2⟩
    have hne : ¬(r.id = j) := by
      rw [hid]
      intro hji
      exact hav hji.symm
    have himg : (if r.id = j then { r with approved := PyVal.vint 1 } else r) = r :=
      if_neg hne
    simpa only [Store.applyOp, Store.approve_kb_entry, himg] using
      List.mem_map_of_mem
        (fun r0 => if r0.id = j then { r0 with approved := PyVal.vint 1 } else r0) hr
  | deleteKb j =>
    refine ⟨⟨r, ?_, hid, hap⟩, h2⟩
    refine List.mem_filter.mpr ⟨hr, ?_⟩
    simp only [decide_eq_true_eq]
    rw [hid]
    intro hji
    exact hav hji.symm
  | storeSummary sm => exact ⟨⟨r, hr, hid, hap⟩, h2⟩
  | reviewSession => exact ⟨⟨r, hr, hid, hap⟩, h2⟩

theorem kb_pending_inv_applyOps (i : Nat) (s : Store.DbState) (ops : List Store.DbOp)
    (hav : ∀ op ∈ ops, opAvoidsKb i op)
    (h1 : ∃ r ∈ s.kb, r.id = i ∧ r.approved = .vint 0)
    (h2 : i < s.nextKbId) :
    (∃ r ∈ (Store.applyOps s ops).kb, r.id = i ∧ r.approved = .vint 0)
    ∧ i < (Store.applyOps s ops).nextKbId := by
  induction ops generalizing s with
  | nil => exact ⟨h1, h2⟩
  | cons op rest ih =>
    have h := kb_pending_inv_applyOp i s op (hav op (List.mem_cons_self op rest)) h1 h2
    exact ih _ (fun o ho => hav o (List.mem_cons_of_mem op ho)) h.1 h.2

theorem kb_approved_inv_applyOp (i : Nat) (s : Store.DbState) (op : Store.DbOp)
    (h1 : ∀ r ∈ s.kb, r.id = i → r.approved = .vint 1)
    (h2 : i < s.nextKbId) :
    (∀ r ∈ (Store.applyOp s op).kb, r.id = i → r.approved = .vint 1)
    ∧ i < (Store.applyOp s op).nextKbId := by
  cases op with
  | storeEvent e => exact ⟨h1, h2⟩
  | markReviewed ids now => exact ⟨h1, h2⟩
  | createKb entry now =>
    refine ⟨?_, by simp only [Store.applyOp, Store.create_kb_entry]; omega⟩
    intro r hr hid
    simp only [Store.applyOp, Store.create_kb_entry] at hr
    rcases List.mem_append.mp hr with h | h
    · exact h1 r h hid
    · have heq := List.mem_singleton.mp h
      subst heq
      simp only at hid
      omega
  | approveKb j =>
    refine ⟨?_, h2⟩
    intro r hr hid
    simp only [Store.applyOp, Store.approve_kb_entry] at hr
    rcases List.mem_map.mp hr with ⟨r0, hr0, heq⟩
    by_cases hc : r0.id = j
    · rw [if_pos hc] at heq
      subst heq
      rfl
    · rw [if_neg hc] at heq
      subst heq
      exact h1 r0 hr0 hid
  | deleteKb j =>
    refine ⟨?_, h2⟩
    intro r hr hid
    exact h1 r (List.mem_filter.mp hr).1 hid
  | storeSummary sm => exact ⟨h1, h2⟩
  | reviewSession => exact ⟨h1, h2⟩

theorem kb_approved_inv_applyOps (i : Nat) (s : Store.DbState) (ops : List Store.DbOp)
    (h1 : ∀ r ∈ s.kb, r.id = i → r.approved = .vint 1)
    (h2 : i < s.nextKbId) :
    ∀ r ∈ (Store.applyOps s ops).kb, r.id = i → r.approved = .vint 1 := by
  induction ops generalizing s with
  | nil => exact h1
  | cons op rest ih =>
    have h := kb_approved_inv_applyOp i s op h1 h2
    exact ih _ h.1 h.2

theorem pending_mem_of_row (s : Store.DbState) (i : Nat)
    (h1 : ∃ r ∈ s.kb, r.id = i ∧ r.approved = .vint 0) :
    ∃ e ∈ Store.get_pending_kb_entries s,
      Event.get e ("id") = some (.vint (Int.ofNat i)) := by
  obtain ⟨r, hr, hid, hap⟩ := h1
  refine ⟨Store.kbRowToEntry r, ?_, ?_⟩
  · unfold Store.get_pending_kb_entries
    apply List.mem_map_of_mem Store.kbRowToEntry
    apply (List.mem_insertionSort _).mpr
    apply List.mem_filter.mpr
    refine ⟨hr, ?_⟩
    rw [hap]
    rfl
  · rw [← hid]
    simp [Store.kbRowToEntry, Event.get, dlookup]

/-- C8 (amended): `createKbEntry` persists the entry with the
`approved` value the entry itself carries, defaulting to false only
when absent; for an entry whose bound `approved` value is 0 (as every
review-CLI-created entry is, since those never set the field), the
entry is persisted pending, remains returned by the pending query
under every operation sequence that neither approves nor deletes it,
and once `approveKbEntry` runs, `approved = 1` is terminal under all
further operations. -/
theorem C8_kb_entry_lifecycle (s : Store.DbState) (entry : Event) (now : String)
    (h : Store.sqlBind (Event.getD entry ("approved") (.vbool false)) = .vint 0) :
    (∃ r ∈ (Store.create_kb_entry s entry now).1.kb,
        r.id = (Store.create_kb_entry s entry now).2 ∧ r.approved = .vint 0)
    ∧ (∀ ops : List Store.DbOp,
        (∀ op ∈ ops, opAvoidsKb (Store.create_kb_entry s entry now).2 op) →
        ∃ e ∈ Store.get_pending_kb_entries
            (Store.applyOps (Store.create_kb_entry s entry now).1 ops),
          Event.get e ("id")
            = some (.vint (Int.ofNat (Store.create_kb_entry s entry now).2)))
    ∧ (∀ ops : List Store.DbOp,
        ∀ r ∈ (Store.applyOps
            (Store.approve_kb_entry (Store.create_kb_entry s entry now).1
              (Store.create_kb_entry s entry now).2) ops).kb,
          r.id = (Store.create_kb_entry s entry now).2 → r.approved = .vint 1) := by
  have hrow : ∃ r ∈ (Store.create_kb_entry s entry now).1.kb,
      r.id = (Store.create_kb_entry s entry now).2 ∧ r.approved = .vint 0 := by
    refine ⟨_, List.mem_append_right _ (List.mem_singleton_self _), rfl, ?_⟩
    exact h
  refine ⟨hrow, ?_, ?_⟩
  · intro ops hav
    have hlt : (Store.create_kb_entry s entry now).2
        < (Store.create_kb_entry s entry now).1.nextKbId := by
      simp only [Store.create_kb_entry]
      omega
    have hinv := kb_pending_inv_applyOps _ _ ops hav hrow hlt
    exact pending_mem_of_row _ _ hinv.1
  · intro ops
    have h1 : ∀ r ∈ (Store.approve_kb_entry (Store.create_kb_entry s entry now).1
        (Store.create_kb_entry s entry now).2).kb,
        r.id = (Store.create_kb_entry s entry now).2 → r.approved = .vint 1 := by
      intro r hr hid
      simp only [Store.approve_kb_entry] at hr
      rcases List.mem_map.mp hr with ⟨r0, hr0, heq⟩
      by_cases hc : r0.id = (Store.create_kb_entry s entry now).2
      · rw [if_pos hc] at heq
        subst heq
        rfl
      · rw [if_neg hc] at heq
        subst heq
        exact absurd hid hc
    have h2 : (Store.create_kb_entry s entry now).2
        < (Store.approve_kb_entry (Store.create_kb_entry s entry now).1
            (Store.create_kb_entry s entry now).2).nextKbId := by
      simp only [Store.approve_kb_entry, Store.create_kb_entry]
      omega
    exact kb_approved_inv_applyOps _ _ ops h1 h2

/-- Witness for C8: a plain entry (no `approved` field) stays pending
through an unrelated KB creation, and approving it is terminal. -/
theorem C8_kb_entry_witness :
    (∃ r ∈ (Store.create_kb_entry Store.emptyDb plainEntry markDate).1.kb,
        r.id = (Store.create_kb_entry Store.emptyDb plainEntry markDate).2
          ∧ r.approved = .vint 0)
    ∧ (∀ ops : List Store.DbOp,
        (∀ op ∈ ops, opAvoidsKb
          (Store.create_kb_entry Store.emptyDb plainEntry markDate).2 op) →
        ∃ e ∈ Store.get_pending_kb_entries
            (Store.applyOps (Store.create_kb_entry Store.emptyDb plainEntry markDate).1 ops),
          Event.get e ("id")
            = some (.vint (Int.ofNat
                (Store.create_kb_entry Store.emptyDb plainEntry markDate).2)))
    ∧ (∀ ops : List Store.DbOp,
        ∀ r ∈ (Store.applyOps
            (Store.approve_kb_entry
              (Store.create_kb_entry Store.emptyDb plainEntry markDate).1
              (Store.create_kb_entry Store.emptyDb plainEntry markDate).2) ops).kb,
          r.id = (Store.create_kb_entry Store.emptyDb plainEntry markDate).2
            → r.approved = .vint 1) :=
  C8_kb_entry_lifecycle Store.emptyDb plainEntry markDate rfl

/-- C3 (counterexample): an event arriving with `importance = 42`
passes through categorization unchanged — `categorize_event` computes
importance only when the field is absent and never clamps a value that
is already present, so the claimed `0 <= importance <= 10` fails. -/
theorem C3_unclamped_counterexample :
    ((Categorizer.categorize_batch pats0 [] [imp42]).2.head?.bind
        (fun e => Event.get e ("importance")) = some (.vint 42))
    ∧ ¬((42 : Int) ≤ 10) :=
  ⟨rfl, by norm_num⟩

theorem lookupFactor_bound (f : List (String × Int)) (c : String)
    (hf : ∀ p ∈ f, 0 ≤ p.2 ∧ p.2 ≤ 10) :
    0 ≤ Categorizer.lookupFactor f c ∧ Categorizer.lookupFactor f c ≤ 10 := by
  induction f with
  | nil => simp [Categorizer.lookupFactor]
  | cons hd tl ih =>
    obtain ⟨k, v⟩ := hd
    simp only [Categorizer.lookupFactor]
    split
    · exact hf (k, v) (List.mem_cons_self _ _)
    · exact ih (fun p hp => hf p (List.mem_cons_of_mem _ hp))

theorem calculate_importance_bound (pats : Categorizer.Patterns) (e : Event)
    (hf : ∀ p ∈ pats.importance_factors, 0 ≤ p.2 ∧ p.2 ≤ 10) :
    0 ≤ Categorizer.calculate_importance pats e
    ∧ Categorizer.calculate_importance pats e ≤ 10 := by
  have hb := lookupFactor_bound pats.importance_factors (Event.getStr e ("category")) hf
  simp only [Categorizer.calculate_importance]
  split_ifs <;> omega

theorem importance_ok_out_set (e : Event) (k : String) (v : PyVal)
    (h : ¬(k = ("importance"))) :
    importance_ok_out (Event.set e k v) = importance_ok_out e := by
  unfold importance_ok_out
  rw [get_set_ne _ _ _ _ h]

theorem importance_ok_in_set (e : Event) (k : String) (v : PyVal)
    (h : ¬(k = ("importance"))) :
    importance_ok_in (Event.set e k v) = importance_ok_in e := by
  unfold importance_ok_in
  rw [get_set_ne _ _ _ _ h]

theorem wip_importance_bound (e : Event) (he : importance_ok_in e = true) :
    0 ≤ max (pyAsIntD (Event.getD e ("importance") (.vint 5)) 5 - 2) 1
    ∧ max (pyAsIntD (Event.getD e ("importance") (.vint 5)) 5 - 2) 1 ≤ 10 := by
  unfold importance_ok_in Event.get at he
  unfold Event.getD
  cases hg : dlookup e ("importance") with
  | none =>
    simp only [Option.getD, pyAsIntD, pyAsInt]
    omega
  | some v =>
    rw [hg] at he
    cases v with
    | vint i =>
      simp only [Option.getD, pyAsIntD, pyAsInt]
      simp only [decide_eq_true_eq, Bool.and_eq_true] at he
      omega
    | vstr s => simp at he
    | vbool b => simp at he
    | vnone => simp at he
    | vlist xs => simp at he
    | vdict xs => simp at he

theorem enhance_importance_ok (e : Event) (he : importance_ok_in e = true) :
    importance_ok_in (Categorizer.enhance_category e) = true := by
  simp only [Categorizer.enhance_category]
  split_ifs with h1 h2 h3 h4 h5
  · rw [importance_ok_in_set _ _ _ (by decide)]
    exact he
  · rw [importance_ok_in_set _ _ _ (by decide)]
    exact he
  · exact he
  · have hb := wip_importance_bound e he
    unfold importance_ok_in
    rw [get_set_same]
    simp only [decide_eq_true_eq, Bool.and_eq_true]
    exact hb
  · exact he
  · exact he

theorem enhance_hasKey_importance (e : Event)
    (h : Event.hasKey e ("importance") = true) :
    Event.hasKey (Categorizer.enhance_category e) ("importance") = true := by
  simp only [Categorizer.enhance_category]
  split_ifs <;> simp [hasKey_set, h]

theorem ok_in_present_ok_out (e : Event) (he : importance_ok_in e = true)
    (h : Event.hasKey e ("importance") = true) : importance_ok_out e = true := by
  unfold importance_ok_in Event.get at he
  unfold importance_ok_out Event.get
  unfold Event.hasKey at h
  cases hg : dlookup e ("importance") with
  | none =>
    rw [hg] at h
    simp at h
  | some v =>
    rw [hg] at he
    cases v <;> simpa using he

theorem categorize_event_importance (pats : Categorizer.Patterns) (w : List Event)
    (e : Event)
    (hf : ∀ p ∈ pats.importance_factors, 0 ≤ p.2 ∧ p.2 ≤ 10)
    (he : importance_ok_in e = true) :
    importance_ok_out (Categorizer.categorize_event pats w e) = true := by
  simp only [Categorizer.categorize_event]
  rw [importance_ok_out_set _ _ _ (by decide)]
  by_cases hcat : Event.hasKey e ("category") = true
  · rw [if_pos hcat]
    have he1 : importance_ok_in (Categorizer.enhance_category e) = true :=
      enhance_importance_ok e he
    by_cases himp : Event.hasKey (Categorizer.enhance_category e) ("importance") = true
    · rw [if_pos himp]
      exact ok_in_present_ok_out _ he1 himp
    · rw [if_neg himp]
      unfold importance_ok_out
      rw [get_set_same]
      have hb := calculate_importance_bound pats
        (Categorizer.enhance_category e) hf
      simp only [decide_eq_true_eq, Bool.and_eq_true]
      exact hb
  · rw [if_neg hcat]
    have he1 : importance_ok_in
        (Event.set e ("category") (.vstr (Categorizer.determine_category pats w e)))
          = true := by
      rw [importance_ok_in_set _ _ _ (by decide)]
      exact he
    by_cases himp : Event.hasKey
        (Event.set e ("category") (.vstr (Categorizer.determine_category pats w e)))
          ("importance") = true
    · rw [if_pos himp]
      exact ok_in_present_ok_out _ he1 himp
    · rw [if_neg himp]
      unfold importance_ok_out
      rw [get_set_same]
      have hb := calculate_importance_bound pats
        (Event.set e ("category") (.vstr (Categorizer.determine_category pats w e))) hf
      simp only [decide_eq_true_eq, Bool.and_eq_true]
      exact hb

theorem categorize_step_importance (pats : Categorizer.Patterns) (w : List Event)
    (e : Event)
    (hf : ∀ p ∈ pats.importance_factors, 0 ≤ p.2 ∧ p.2 ≤ 10)
    (he : importance_ok_in e = true) :
    importance_ok_out (Categorizer.categorize_step pats w e).2 = true := by
  simp only [Categorizer.categorize_step]
  split
  · rw [importance_ok_out_set _ _ _ (by decide)]
    exact categorize_event_importance pats _ e hf he
  · exact categorize_event_importance pats _ e hf he

/-- C3 (amended): after categorization every event's importance is an
integer in `[0, 10]`, **provided** every configured category base
weight lies in `[0, 10]` and every event that arrives with an
importance already set carries an integer in `[0, 10]` — the code
never clamps a pre-set importance nor an out-of-range base weight. -/
theorem C3_importance_bounded (pats : Categorizer.Patterns) (w : List Event)
    (events : List Event)
    (hf : factors_ok pats = true)
    (he : events.all importance_ok_in = true) :
    ((Categorizer.categorize_batch pats w events).2).all importance_ok_out = true := by
  have hf2 : ∀ p ∈ pats.importance_factors, 0 ≤ p.2 ∧ p.2 ≤ 10 := by
    intro p hp
    have := (List.all_eq_true.mp hf) p hp
    simp only [decide_eq_true_eq, Bool.and_eq_true] at this
    exact this
  induction events generalizing w with
  | nil => rfl
  | cons e rest ih =>
    simp only [List.all_cons, Bool.and_eq_true] at he
    rcases hs : Categorizer.categorize_step pats w e with ⟨w1, e1⟩
    have hstep := categorize_step_importance pats w e hf2 he.1
    rw [hs] at hstep
    simp only [Categorizer.categorize_batch, hs]
    rcases hb : Categorizer.categorize_batch pats w1 rest with ⟨w2, out⟩
    simp only [List.all_cons, Bool.and_eq_true]
    refine ⟨hstep, ?_⟩
    have := ih w1 he.2
    rw [hb] at this
    exact this

/-- Witness for C3: a batch with an in-range pre-set importance and an
in-range configured base weight categorizes to in-range importances. -/
theorem C3_importance_witness :
    ((Categorizer.categorize_batch
        ⟨[], [(("development"), 7)]⟩ [] [calmEv, wipEv]).2).all importance_ok_out
      = true :=
  C3_importance_bounded ⟨[], [(("development"), 7)]⟩ [] [calmEv, wipEv] rfl rfl

/-- C4 (counterexample): `categorize_batch` is not idempotent — a
`git_commit`-category event whose message contains `WIP` has its
importance reduced by 2 (floor 1) on *every* pass: the first pass
yields 3 (from the default 5), the second pass 1. -/
theorem C4_not_idempotent_counterexample :
    (wipPass1.head?.bind (fun e => Event.get e ("importance")) = some (.vint 3))
    ∧ (wipPass2.head?.bind (fun e => Event.get e ("importance")) = some (.vint 1))
    ∧ ¬(wipPass2 = wipPass1) := by
  refine ⟨rfl, rfl, ?_⟩
  intro h
  have h2 : (some (PyVal.vint 1) : Option PyVal) = some (PyVal.vint 3) :=
    congrArg (fun l => l.head?.bind (fun e => Event.get e ("importance"))) h
  simp at h2

theorem enhance_hasKey_any (e : Event) (k : String)
    (h : Event.hasKey e k = true) :
    Event.hasKey (Categorizer.enhance_category e) k = true := by
  simp only [Categorizer.enhance_category]
  split_ifs <;> simp [hasKey_set, h]

theorem extract_set_ne (e : Event) (k : String) (v : PyVal)
    (h1 : ¬(k = ("type"))) (h2 : ¬(k = ("data")))  :
    Categorizer.extract_key_info (Event.set e k v) = Categorizer.extract_key_info e := by
  unfold Categorizer.extract_key_info
  rw [getStr_set_ne _ _ _ _ h1, getDict_set_ne _ _ _ _ h2]

theorem enriched_after_key_info (X : Event)
    (hc : Event.hasKey X ("category") = true)
    (hi : Event.hasKey X ("importance") = true) :
    Event.hasKey (Event.set X ("key_info") (Categorizer.extract_key_info X))
        ("category") = true
    ∧ Event.hasKey (Event.set X ("key_info") (Categorizer.extract_key_info X))
        ("importance") = true
    ∧ Event.get (Event.set X ("key_info") (Categorizer.extract_key_info X)) ("key_info")
        = some (Categorizer.extract_key_info
            (Event.set X ("key_info") (Categorizer.extract_key_info X))) := by
  refine ⟨?_, ?_, ?_⟩
  · simp [hasKey_set, hc]
  · simp [hasKey_set, hi]
  · rw [extract_set_ne _ _ _ (by decide) (by decide)]
    exact get_set_same _ _ _

theorem categorize_event_enriched (pats : Categorizer.Patterns) (w : List Event)
    (e : Event) :
    Event.hasKey (Categorizer.categorize_event pats w e) ("category") = true
    ∧ Event.hasKey (Categorizer.categorize_event pats w e) ("importance") = true
    ∧ Event.get (Categorizer.categorize_event pats w e) ("key_info")
        = some (Categorizer.extract_key_info
            (Categorizer.categorize_event pats w e)) := by
  simp only [Categorizer.categorize_event]
  by_cases hcat : Event.hasKey e ("category") = true
  · rw [if_pos hcat]
    by_cases himp : Event.hasKey (Categorizer.enhance_category e) ("importance") = true
    · rw [if_pos himp]
      exact enriched_after_key_info _ (enhance_hasKey_any e _ hcat) himp
    · rw [if_neg himp]
      refine enriched_after_key_info _ ?_ ?_
      · simp [hasKey_set, enhance_hasKey_any e _ hcat]
      · simp [hasKey_set]
  · rw [if_neg hcat]
    by_cases himp : Event.hasKey
        (Event.set e ("category") (.vstr (Categorizer.determine_category pats w e)))
          ("importance") = true
    · rw [if_pos himp]
      refine enriched_after_key_info _ ?_ himp
      simp [hasKey_set]
    · rw [if_neg himp]
      refine enriched_after_key_info _ ?_ ?_
      · simp [hasKey_set]
      · simp [hasKey_set]

theorem categorize_step_enriched (pats : Categorizer.Patterns) (w : List Event)
    (e : Event) :
    Event.hasKey (Categorizer.categorize_step pats w e).2 ("category") = true
    ∧ Event.hasKey (Categorizer.categorize_step pats w e).2 ("importance") = true
    ∧ Event.get (Categorizer.categorize_step pats w e).2 ("key_info")
        = some (Categorizer.extract_key_info
            (Categorizer.categorize_step pats w e).2) := by
  simp only [Categorizer.categorize_step]
  have hce := categorize_event_enriched pats
    (if 50 < (w ++ [e]).length then List.drop 1 (w ++ [e]) else w ++ [e]) e
  split
  · refine ⟨?_, ?_, ?_⟩
    · rw [hasKey_set, hce.1]
      simp
    · rw [hasKey_set, hce.2.1]
      simp
    · rw [extract_set_ne _ _ _ (by decide) (by decide)]
      rw [get_set_ne _ _ _ _ (by decide)]
      exact hce.2.2
  · exact hce

theorem categorize_batch_enriched (pats : Categorizer.Patterns) (w : List Event)
    (es : List Event) :
    ∀ out ∈ (Categorizer.categorize_batch pats w es).2,
      Event.hasKey out ("category") = true
      ∧ Event.hasKey out ("importance") = true
      ∧ Event.get out ("key_info") = some (Categorizer.extract_key_info out) := by
  induction es generalizing w with
  | nil => intro out h; simp [Categorizer.categorize_batch] at h
  | cons e rest ih =>
    intro out hout
    rcases hs : Categorizer.categorize_step pats w e with ⟨w1, e1⟩
    simp only [Categorizer.categorize_batch, hs] at hout
    rcases List.mem_cons.mp hout with h | h
    · subst h
      have h2 := categorize_step_enriched pats w e
      rw [hs] at h2
      exact h2
    · exact ih w1 out h

theorem categorize_event_stable (pats : Categorizer.Patterns) (w : List Event)
    (e : Event)
    (hcat : Event.hasKey e ("category") = true)
    (himp : Event.hasKey e ("importance") = true)
    (hki : Event.get e ("key_info") = some (Categorizer.extract_key_info e))
    (henh : Categorizer.enhance_category e = e) :
    Categorizer.categorize_event pats w e = e := by
  simp only [Categorizer.categorize_event]
  rw [if_pos hcat, henh, if_pos himp]
  exact dinsert_of_lookup _ _ _ hki

theorem categorize_step_agree (pats : Categorizer.Patterns) (w : List Event)
    (e : Event)
    (hcat : Event.hasKey e ("category") = true)
    (himp : Event.hasKey e ("importance") = true)
    (hki : Event.get e ("key_info") = some (Categorizer.extract_key_info e))
    (henh : Categorizer.enhance_category e = e) :
    ∀ k, ¬(k = ("session")) →
      Event.get (Categorizer.categorize_step pats w e).2 k = Event.get e k := by
  simp only [Categorizer.categorize_step]
  rw [categorize_event_stable pats _ e hcat himp hki henh]
  split
  · intro k hk
    exact get_set_ne _ _ _ _ (fun h => hk h.symm) |>.trans rfl
  · intro k hk
    rfl

theorem categorize_batch_stable (pats : Categorizer.Patterns) (es1 : List Event)
    (w : List Event)
    (h : ∀ e ∈ es1, Event.hasKey e ("category") = true
        ∧ Event.hasKey e ("importance") = true
        ∧ Event.get e ("key_info") = some (Categorizer.extract_key_info e)
        ∧ Categorizer.enhance_category e = e) :
    List.Forall₂ (fun b a => ∀ k, ¬(k = ("session")) → Event.get b k = Event.get a k)
      ((Categorizer.categorize_batch pats w es1).2) es1 := by
  induction es1 generalizing w with
  | nil => exact List.Forall₂.nil
  | cons e rest ih =>
    rcases hs : Categorizer.categorize_step pats w e with ⟨w1, e1⟩
    simp only [Categorizer.categorize_batch, hs]
    have he := h e (List.mem_cons_self _ _)
    have hstep := categorize_step_agree pats w e he.1 he.2.1 he.2.2.1 he.2.2.2
    rw [hs] at hstep
    exact List.Forall₂.cons hstep (ih w1 (fun x hx => h x (List.mem_cons_of_mem _ hx)))

/-- C4 (amended): a second `categorizeBatch` pass (same initial window
state) leaves category, importance, subcategory — indeed every field
except possibly the attached `session` — of every event unchanged,
**provided** re-enhancement is inert on the first pass's outputs.  The
proviso is forced: the `git_commit`/`WIP` branch reduces importance by
2 (floor 1) on every pass, and an event first categorized `testing`
with an error flag gains a `subcategory` only on the second pass, so
unrestricted idempotence fails. -/
theorem C4_second_pass_stable (pats : Categorizer.Patterns) (w : List Event)
    (es : List Event)
    (henh : ∀ out ∈ (Categorizer.categorize_batch pats w es).2,
        Categorizer.enhance_category out = out) :
    List.Forall₂ (fun b a => ∀ k, ¬(k = ("session")) → Event.get b k = Event.get a k)
      ((Categorizer.categorize_batch pats w
          ((Categorizer.categorize_batch pats w es).2)).2)
      ((Categorizer.categorize_batch pats w es).2) := by
  apply categorize_batch_stable
  intro e hmem
  have h1 := categorize_batch_enriched pats w es e hmem
  exact ⟨h1.1, h1.2.1, h1.2.2, henh e hmem⟩

/-- Witness for C4: a benign already-categorized event re-categorizes
to itself (up to the session field) on a second pass. -/
theorem C4_second_pass_witness :
    List.Forall₂ (fun b a => ∀ k, ¬(k = ("session")) → Event.get b k = Event.get a k)
      ((Categorizer.categorize_batch pats0 []
          ((Categorizer.categorize_batch pats0 [] [calmEv]).2)).2)
      ((Categorizer.categorize_batch pats0 [] [calmEv]).2) :=
  C4_second_pass_stable pats0 [] [calmEv]
    (by
      intro out h
      have h2 := List.mem_singleton.mp h
      subst h2
      rfl)

theorem intercalate_go_prefix (s : String) (l : List String) (acc : String) :
    ∃ r, String.intercalate.go acc s l = acc ++ r := by
  induction l generalizing acc with
  | nil => exact ⟨"", (String.append_empty acc).symm⟩
  | cons a as ih =>
    obtain ⟨r, hr⟩ := ih (acc ++ s ++ a)
    refine ⟨s ++ a ++ r, ?_⟩
    simp only [String.intercalate.go, hr]
    rw [String.append_assoc, String.append_assoc, String.append_assoc]

theorem len_pos_append (a b : String) (h : 0 < a.length) : 0 < (a ++ b).length := by
  rw [String.length_append]
  omega

theorem summaryLines_pos (s : Event) :
    ∀ l ∈ Summarizer.summaryLines s, 0 < l.length := by
  intro l hl
  simp only [Summarizer.summaryLines, List.mem_append] at hl
  rcases hl with ((((h | h) | h) | h) | h) | h
  · split at h
    · rcases List.mem_singleton.mp h with rfl
      repeat apply len_pos_append
      decide
    · simp at h
  · split at h
    · rcases List.mem_append.mp h with h2 | h2
      · rcases List.mem_singleton.mp h2 with rfl
        repeat apply len_pos_append
        decide
      · rcases List.mem_map.mp h2 with ⟨a, _, rfl⟩
        repeat apply len_pos_append
        decide
    · simp at h
  · split at h
    · rcases List.mem_append.mp h with h2 | h2
      · rcases List.mem_singleton.mp h2 with rfl
        repeat apply len_pos_append
        decide
      · rcases List.mem_map.mp h2 with ⟨a, _, rfl⟩
        repeat apply len_pos_append
        decide
    · simp at h
  · split at h
    · rcases List.mem_append.mp h with h2 | h2
      · rcases List.mem_singleton.mp h2 with rfl
        repeat apply len_pos_append
        decide
      · rcases List.mem_map.mp h2 with ⟨a, _, rfl⟩
        repeat apply len_pos_append
        decide
    · simp at h
  · split at h
    · rcases List.mem_singleton.mp h with rfl
      repeat apply len_pos_append
      decide
    · simp at h
  · split at h
    · rcases List.mem_append.mp h with h2 | h2
      · rcases List.mem_singleton.mp h2 with rfl
        decide
      · rcases List.mem_map.mp h2 with ⟨a, _, rfl⟩
        repeat apply len_pos_append
        decide
    · simp at h

theorem generate_text_nonempty (s : Event) :
    ¬(Summarizer.generate_text_summary s = "") := by
  unfold Summarizer.generate_text_summary
  cases hl : Summarizer.summaryLines s with
  | nil =>
    simp only [List.isEmpty_nil, if_pos]
    decide
  | cons x xs =>
    rw [if_neg (by simp)]
    have hx : 0 < x.length :=
      summaryLines_pos s x (by rw [hl]; exact List.mem_cons_self _ _)
    obtain ⟨r, hr⟩ := intercalate_go_prefix ("\n") xs x
    intro hcontra
    have h2 : (String.intercalate ("\n") (x :: xs)).length = 0 := by
      rw [hcontra]
      rfl
    rw [show String.intercalate ("\n") (x :: xs) = String.intercalate.go x ("\n") xs
      from rfl, hr, String.length_append] at h2
    omega

theorem summarize_text_nonempty (now : String) (events : List Event) :
    ∃ t, Event.get (Summarizer.summarize now events) ("text") = some (.vstr t)
      ∧ ¬(t = "") := by
  unfold Summarizer.summarize
  exact ⟨_, get_set_same _ _ _, generate_text_nonempty _⟩

/-- C9: after categorization and importance filtering, a batch with
more than 5 surviving events stores exactly one summary — whose
rendered text block is non-empty — and no individual events; a batch
with 1 to 5 survivors stores exactly the survivors and no summary;
and an empty filtered batch stores nothing. -/
theorem C9_summary_dispatch (pats : Categorizer.Patterns) (minImp : Int)
    (now : String) (w : List Event) (events : List Event) :
    (5 < ((Categorizer.categorize_batch pats w events).2.filter
        (fun e => KBDaemon.pyGeInt (Event.getD e ("importance") (.vint 0)) minImp)).length →
      (KBDaemon.process_events pats minImp now w events).stored_events = []
      ∧ (KBDaemon.process_events pats minImp now w events).stored_summary
          = some (Summarizer.summarize now
              ((Categorizer.categorize_batch pats w events).2.filter
                (fun e => KBDaemon.pyGeInt (Event.getD e ("importance") (.vint 0)) minImp)))
      ∧ ∃ t, Event.get (Summarizer.summarize now
            ((Categorizer.categorize_batch pats w events).2.filter
              (fun e => KBDaemon.pyGeInt (Event.getD e ("importance") (.vint 0)) minImp)))
          ("text") = some (.vstr t) ∧ ¬(t = ""))
    ∧ (1 ≤ ((Categorizer.categorize_batch pats w events).2.filter
        (fun e => KBDaemon.pyGeInt (Event.getD e ("importance") (.vint 0)) minImp)).length
      ∧ ((Categorizer.categorize_batch pats w events).2.filter
        (fun e => KBDaemon.pyGeInt (Event.getD e ("importance") (.vint 0)) minImp)).length ≤ 5 →
      (KBDaemon.process_events pats minImp now w events).stored_events
          = (Categorizer.categorize_batch pats w events).2.filter
              (fun e => KBDaemon.pyGeInt (Event.getD e ("importance") (.vint 0)) minImp)
      ∧ (KBDaemon.process_events pats minImp now w events).stored_summary = none)
    ∧ (((Categorizer.categorize_batch pats w events).2.filter
        (fun e => KBDaemon.pyGeInt (Event.getD e ("importance") (.vint 0)) minImp)).length = 0 →
      (KBDaemon.process_events pats minImp now w events).stored_events = []
      ∧ (KBDaemon.process_events pats minImp now w events).stored_summary = none) := by
  simp only [KBDaemon.process_events]
  split_ifs with h1 h2
  · rw [List.isEmpty_iff_length_eq_zero] at h1
    refine ⟨fun h => absurd h (by omega), fun h => absurd h.1 (by omega), fun _ => ⟨rfl, rfl⟩⟩
  · rw [List.isEmpty_iff_length_eq_zero] at h1
    exact ⟨fun h => ⟨rfl, rfl, summarize_text_nonempty now _⟩,
      fun h => absurd h2 (by omega), fun h => absurd h h1⟩
  · rw [List.isEmpty_iff_length_eq_zero] at h1
    exact ⟨fun h => absurd h h2, fun h => ⟨rfl, rfl⟩, fun h => absurd h h1⟩

set_option maxHeartbeats 4000000 in
/-- Witness for C9: six events surviving the importance filter produce
exactly one summary with non-empty text and no individual events. -/
theorem C9_summary_witness :
    sixOutcome.stored_events = []
    ∧ sixOutcome.stored_summary = some (Summarizer.summarize nowStr sixImportant)
    ∧ ∃ t, Event.get (Summarizer.summarize nowStr sixImportant) ("text")
        = some (.vstr t) ∧ ¬(t = "") :=
  (C9_summary_dispatch pats0 3 nowStr [] sixEvents).1 (by decide)

theorem is_error_fix_self_false (ev2 : Event) (dataEv : Event)
    (hdata : Event.getDict ev2 ("data") = dataEv)
    (hcond : (!(pyEqZero (Event.getD dataEv ("exit_code") (.vint 0)))) = true) :
    ShellMonitor.is_error_fix (some ev2) ev2 = false := by
  simp only [ShellMonitor.is_error_fix, hdata]
  cases hg : dlookup dataEv ("exit_code") with
  | none =>
    simp [Event.getD, hg, pyEqZero] at hcond
  | some v =>
    simp only [Event.getD, hg, Option.getD] at hcond
    simp only [Event.getD, hg, Option.getD]
    simp at hcond
    simp [hcond]

/-- Strengthening of the C2 finding: the `fixes_error` flag is dead
code for *every* input — `_process_command` checks `_is_error_fix`
only inside the non-zero-exit branch, with `last_error` just
overwritten by the current event itself, while `_is_error_fix`
demands a zero exit code of that same event; the two conditions are
contradictory, so no processed event ever gains the flag. -/
theorem fixes_error_never_set (st : ShellMonitor.State) (ev : Event) (out : Event)
    (h : (ShellMonitor.process_command st ev).2 = some out) :
    Event.get out ("fixes_error") = Event.get ev ("fixes_error") := by
  simp only [ShellMonitor.process_command] at h
  split at h
  · simp at h
  · split at h
    case isTrue hcond =>
      rw [is_error_fix_self_false _ (Event.getDict ev ("data")) ?hdata ?hc] at h
      case hdata =>
        rw [getDict_set_ne _ _ _ _ (by decide), getDict_set_ne _ _ _ _ (by decide),
          getDict_set_ne _ _ _ _ (by decide), getDict_set_ne _ _ _ _ (by decide),
          getDict_set_ne _ _ _ _ (by decide)]
      case hc => exact hcond
      rw [if_neg (show ¬(false = true) by decide)] at h
      dsimp only at h
      injection h with h
      subst h
      rw [get_set_ne _ _ _ _ (by decide), get_set_ne _ _ _ _ (by decide),
        get_set_ne _ _ _ _ (by decide), get_set_ne _ _ _ _ (by decide),
        get_set_ne _ _ _ _ (by decide)]
    case isFalse hcond =>
      dsimp only at h
      injection h with h
      subst h
      rw [get_set_ne _ _ _ _ (by decide), get_set_ne _ _ _ _ (by decide),
        get_set_ne _ _ _ _ (by decide)]

/-- The dead-code fact at scenario 2's input: the enriched second
event carries exactly the raw event's (absent) `fixes_error`. -/
theorem fixes_error_never_set_example :
    (shellScenario2.bind (fun e => Event.get e ("fixes_error")) = none)
    ∧ Event.get npmPass ("fixes_error") = none :=
  ⟨rfl, rfl⟩
